import Mathlib

/-!
# bbgo: the bpp strategy and the Binance conversions

A shallow embedding of `pkg/strategy/bpp/strategy.go` (state persistence, the
cancel-and-verify loop, `Run`, `placeOrders`) and of the trade, order,
order-type and stream-name conversions of `pkg/exchange/binance/convert.go`.

Exchange calls, the push stream and the context are the environment of the
strategy: every run of `cancelOrders` is driven by a script that fixes, per
loop iteration, what the exchange answers, which case of the `select` fires and
which orders the stream removes from the book in the meantime.
-/

namespace Bpp

/-! ## Data model -/

/-- Go `error` values: the distinguished `service.ErrPersistenceNotExists`,
errors made by `fmt.Errorf` / `errors.New`, and `errors.Wrapf` of a cause. -/
inductive Error where
  | ErrPersistenceNotExists
  | errorf (msg : String)
  | Wrapf (cause : Error) (msg : String)
deriving DecidableEq, Repr

/-- The part of `types.Order` the strategy reads: the exchange-assigned
identifier and the symbol. -/
structure Order where
  OrderID : Nat
  Symbol : String
deriving DecidableEq, Repr

/-- Modelled from the spec: the Active Order Book (`bbgo.LocalActiveOrderBook`,
not among the sources): the orders currently believed open, one record per
order identifier, with `add`, `remove` (evicts by identifier), `numOfOrders`
and `orders` (a snapshot). -/
structure LocalActiveOrderBook where
  orders : List Order
deriving DecidableEq, Repr

/-- Modelled from the spec: `NewLocalActiveOrderBook()`, the empty book. -/
def NewLocalActiveOrderBook : LocalActiveOrderBook := ⟨[]⟩

/-- Modelled from the spec: `orders()`, a snapshot of the book. -/
def LocalActiveOrderBook.Orders (b : LocalActiveOrderBook) : List Order := b.orders

/-- Modelled from the spec: `numOfOrders()`. -/
def LocalActiveOrderBook.NumOfOrders (b : LocalActiveOrderBook) : Nat := b.orders.length

/-- Modelled from the spec: `remove(order)` evicts by identifier. -/
def LocalActiveOrderBook.Remove (b : LocalActiveOrderBook) (o : Order) : LocalActiveOrderBook :=
  ⟨b.orders.filter (fun x => x.OrderID != o.OrderID)⟩

/-- Modelled from the spec: `add(orders...)` inserts the orders, each replacing
the record that has the same identifier. -/
def LocalActiveOrderBook.Add (b : LocalActiveOrderBook) (os : List Order) : LocalActiveOrderBook :=
  os.foldl (fun acc o => ⟨(acc.Remove o).orders ++ [o]⟩) b

/-- Modelled from the spec: the effect of the push stream on the book. A stream
update that marks an order terminal removes it from the book; updates between
non-terminal states change no membership. `ids` are the identifiers whose
terminal update is delivered. -/
def LocalActiveOrderBook.streamRemove (b : LocalActiveOrderBook) (ids : List Nat) : LocalActiveOrderBook :=
  ⟨b.orders.filter (fun x => !ids.contains x.OrderID)⟩

/-- Modelled from the spec: the Order Store (`bbgo.OrderStore`, not among the
sources), a mapping from order identifier to the last-known record. -/
structure OrderStore where
  Symbol : String
  orders : List Order
deriving DecidableEq, Repr

/-- Modelled from the spec: `NewOrderStore(symbol)`, the empty store. -/
def NewOrderStore (symbol : String) : OrderStore := ⟨symbol, []⟩

/-- Modelled from the spec: `Add(orders...)` upserts each order under its
identifier. -/
def OrderStore.Add (st : OrderStore) (os : List Order) : OrderStore :=
  os.foldl (fun acc o => ⟨acc.Symbol, acc.orders.filter (fun x => x.OrderID != o.OrderID) ++ [o]⟩) st

/-- Modelled from the spec: `exists(id)`. -/
def OrderStore.Exists (st : OrderStore) (oID : Nat) : Bool :=
  st.orders.any (fun x => x.OrderID == oID)

/-- The fields of `types.Market` the strategy reads. -/
structure Market where
  Symbol : String
  BaseCurrency : String
  QuoteCurrency : String
  MinQuantity : Int
deriving DecidableEq, Repr

/-- The position ledger record `bbgo.Position` (fixed-point fields as the
underlying integers). -/
structure Position where
  Symbol : String
  BaseCurrency : String
  QuoteCurrency : String
  Base : Int
  Quote : Int
  AverageCost : Int
deriving DecidableEq, Repr

/-- Modelled from the spec: `bbgo.NewPositionFromMarket` (not among the
sources), the empty ledger of a market: no quantity, no cost. -/
def NewPositionFromMarket (market : Market) : Position :=
  { Symbol := market.Symbol, BaseCurrency := market.BaseCurrency,
    QuoteCurrency := market.QuoteCurrency, Base := 0, Quote := 0, AverageCost := 0 }

/-- The persisted `State` of strategy.go; `Position` is a pointer. -/
structure State where
  Position : Option Position
  AccumulatedVolume : Int
  AccumulatedPnL : Int
  AccumulatedProfit : Int
  AccumulatedLoss : Int
  AccumulatedSince : Int
deriving DecidableEq, Repr

/-- The zero value `State{}`. -/
def State.zero : State :=
  { Position := none, AccumulatedVolume := 0, AccumulatedPnL := 0,
    AccumulatedProfit := 0, AccumulatedLoss := 0, AccumulatedSince := 0 }

/-- The constant `ID` of strategy.go. -/
def ID : String := "bpp"

/-- The constant `stateKey` of strategy.go. -/
def stateKey : String := "state-v1"

/-- Modelled from the spec: the persistence collaborator (`bbgo.Persistence`,
not among the sources): a store from keys (the variadic id strings) to saved
snapshots; `fault`, when set, is the backend failure every call reports. -/
structure Persistence where
  fault : Option Error
  data : List String → Option State

/-- Modelled from the spec: `Persistence.Save(val, id...)`. -/
def Persistence.Save (p : Persistence) (val : Option State) (id : List String) :
    Persistence × Option Error :=
  match p.fault with
  | some e => (p, some e)
  | none =>
    ({ p with data := fun k => if k = id then some (val.getD State.zero) else p.data k }, none)

/-- Modelled from the spec: `Persistence.Load(&val, id...)`; "not found" is the
distinguished `ErrPersistenceNotExists`. -/
def Persistence.Load (p : Persistence) (id : List String) : Except Error State :=
  match p.fault with
  | some e => .error e
  | none =>
    match p.data id with
    | none => .error Error.ErrPersistenceNotExists
    | some st => .ok st

/-- The handlers `Run` registers on the session's streams, on the trade
collector and on the graceful-shutdown hook list. -/
inductive Handler where
  | activeMakerOrdersBindStream
  | orderStoreBindStream
  | tradeCollectorOnProfit
  | tradeCollectorOnTrade
  | tradeCollectorOnPositionUpdate
  | tradeCollectorBindStream
  | userDataStreamOnStart
  | marketDataStreamOnKLineClosed
  | gracefulOnShutdown
deriving DecidableEq, Repr

/-- The part of `bbgo.ExchangeSession` (with the `Graceful` hook list) that
`Run` touches: the market table and the registered handlers, in registration
order. -/
structure ExchangeSession where
  markets : String → Option Market
  registered : List Handler

/-- The `Strategy` of strategy.go (the fields the embedded methods read or
write); `state` is a pointer. -/
structure Strategy where
  Persistence : Persistence
  Symbol : String
  Quantity : Int
  Spread : Int
  market : Market
  state : Option State
  activeMakerOrders : LocalActiveOrderBook
  orderStore : OrderStore
  groupID : Nat

/-! ## State persistence -/

/-- `Strategy.SaveState`: the strategy after the call and the returned error. -/
def Strategy.SaveState (s : Strategy) : Strategy × Option Error :=
  match s.Persistence.Save s.state [ID, s.Symbol, stateKey] with
  | (p, some err) => ({ s with Persistence := p }, some err)
  | (p, none) => ({ s with Persistence := p }, none)

/-- `Strategy.LoadState`; `now` is `time.Now().Unix()`. -/
def Strategy.LoadState (s : Strategy) (now : Int) : Strategy × Option Error :=
  let loaded : Except Error State :=
    match s.Persistence.Load [ID, s.Symbol, stateKey] with
    | .error err =>
      if err ≠ Error.ErrPersistenceNotExists then .error err
      else .ok State.zero
    | .ok state => .ok state
  match loaded with
  | .error err => (s, some err)
  | .ok st0 =>
    let st1 : State :=
      if st0.Position.isNone then { st0 with Position := some (NewPositionFromMarket s.market) }
      else st0
    let st2 : State :=
      if st1.AccumulatedSince = 0 then { st1 with AccumulatedSince := now } else st1
    ({ s with state := some st2 }, none)

/-! ## The cancel-and-verify loop -/

/-- The calls `cancelOrders` makes on `s.session.Exchange`, with their arguments. -/
inductive Call where
  | CancelOrders (orders : List Order)
  | QueryOpenOrders (symbol : String)
deriving DecidableEq, Repr

/-- Whether a call is `CancelOrders`. -/
def Call.isCancelOrders : Call → Bool
  | Call.CancelOrders _ => true
  | Call.QueryOpenOrders _ => false

/-- Whether a call is `QueryOpenOrders`. -/
def Call.isQueryOpenOrders : Call → Bool
  | Call.CancelOrders _ => false
  | Call.QueryOpenOrders _ => true

/-- The two cases of the `select` of lines 140-146. -/
inductive SelectCase where
  | timeAfter
  | ctxDone
deriving DecidableEq, Repr

/-- What the environment does around the first `CancelOrders` call and the
30 ms sleep (lines 122-126). -/
structure InitEnv where
  cancelErr : Option Error
  streamRemoved : List Nat

/-- What the environment does in one iteration of the loop of lines 128-167:
the answer to `CancelOrders`, the case of the `select` that fires, the answer
to `QueryOpenOrders` (asked only when the call is made), and the identifiers
the stream removes from the book while each of the three is pending. -/
structure IterEnv where
  cancelErr : Option Error
  streamOnCancel : List Nat
  selected : SelectCase
  streamOnWait : List Nat
  queryResult : Except Error (List Order)
  streamOnQuery : List Nat

/-- The result of a loop iteration: the book it leaves and the exchange calls
it made, in order. -/
structure IterResult where
  book : LocalActiveOrderBook
  calls : List Call
deriving DecidableEq, Repr

/-- Lines 157-165: build the store of the exchange-confirmed open orders and
remove from the book every order of the snapshot `Orders()` that the store does
not hold. -/
def evictClosed (symbol : String) (book : LocalActiveOrderBook) (openOrders : List Order) :
    LocalActiveOrderBook :=
  let openOrderStore := (NewOrderStore symbol).Add openOrders
  book.Orders.foldl
    (fun b o => if !openOrderStore.Exists o.OrderID then b.Remove o else b) book

/-- Lines 148-166, reached after the `select`: verify through the REST call
when the book still holds orders. -/
def verifyOpenOrders (symbol : String) (book : LocalActiveOrderBook) (e : IterEnv)
    (calls : List Call) : IterResult :=
  if book.NumOfOrders > 0 then
    let calls := calls ++ [Call.QueryOpenOrders symbol]
    let book := book.streamRemove e.streamOnQuery
    match e.queryResult with
    | .error _ => ⟨book, calls⟩
    | .ok openOrders => ⟨evictClosed symbol book openOrders, calls⟩
  else ⟨book, calls⟩

/-- The body of the loop, lines 129-166. In the `select` the `break` of the
`ctx.Done()` case leaves the `select` statement; both cases go on to line 148. -/
def cancelLoopBody (symbol : String) (book : LocalActiveOrderBook) (e : IterEnv) : IterResult :=
  let calls := [Call.CancelOrders book.Orders]
  let book := book.streamRemove e.streamOnCancel
  match e.cancelErr with
  | some _ => ⟨book, calls⟩
  | none =>
    let book := book.streamRemove e.streamOnWait
    match e.selected with
    | SelectCase.timeAfter => verifyOpenOrders symbol book e calls
    | SelectCase.ctxDone => verifyOpenOrders symbol book e calls

/-- How far a run got: `returned` is false when the script of environment
answers ran out with the loop still running. -/
structure Outcome where
  returned : Bool
  book : LocalActiveOrderBook
  calls : List Call
  iterations : Nat
deriving DecidableEq, Repr

/-- The loop `for s.activeMakerOrders.NumOfOrders() > 0`, one script entry per
iteration. -/
def cancelLoop (symbol : String) (book : LocalActiveOrderBook) : List IterEnv → Outcome
  | [] =>
    if book.NumOfOrders > 0 then ⟨false, book, [], 0⟩ else ⟨true, book, [], 0⟩
  | e :: es =>
    if book.NumOfOrders > 0 then
      let r := cancelLoopBody symbol book e
      let o := cancelLoop symbol r.book es
      ⟨o.returned, o.book, r.calls ++ o.calls, o.iterations + 1⟩
    else ⟨true, book, [], 0⟩

/-- `Strategy.cancelOrders`: the first bulk cancel (its error is only logged),
the sleep, then the loop. -/
def cancelOrders (symbol : String) (book : LocalActiveOrderBook) (e0 : InitEnv)
    (es : List IterEnv) : Outcome :=
  let call0 := Call.CancelOrders book.Orders
  let book := book.streamRemove e0.streamRemoved
  let o := cancelLoop symbol book es
  ⟨o.returned, o.book, call0 :: o.calls, o.iterations⟩

/-! ## Run -/

/-- The handlers `Run` registers after the state is restored, in source order
(lines 248-302). -/
def runHandlers : List Handler :=
  [Handler.activeMakerOrdersBindStream, Handler.orderStoreBindStream,
   Handler.tradeCollectorOnProfit, Handler.tradeCollectorOnTrade,
   Handler.tradeCollectorOnPositionUpdate, Handler.tradeCollectorBindStream,
   Handler.userDataStreamOnStart, Handler.marketDataStreamOnKLineClosed,
   Handler.gracefulOnShutdown]

/-- The result of `Run`: the strategy, the session with its registered
handlers, and the returned error. -/
structure RunResult where
  strategy : Strategy
  session : ExchangeSession
  err : Option Error

/-- `Strategy.Run`. `GenerateGroupID` is `max.GenerateGroupID` (an FNV hash
outside the sources) and `now` is the clock `LoadState` reads. The session is
passed along explicitly instead of being stored in `s.session`, and the trade
collector appears only through the handlers registered on it. -/
def Strategy.Run (s : Strategy) (session : ExchangeSession) (GenerateGroupID : String → Nat)
    (now : Int) : RunResult :=
  match session.markets s.Symbol with
  | none => ⟨s, session, some (Error.errorf ("market " ++ s.Symbol ++ " not found"))⟩
  | some market =>
    let s := { s with market := market }
    let instanceID := ID ++ "-" ++ s.Symbol
    let s := { s with groupID := GenerateGroupID instanceID }
    match s.LoadState now with
    | (s, some err) => ⟨s, session, some err⟩
    | (s, none) =>
      let s := { s with activeMakerOrders := NewLocalActiveOrderBook }
      let s := { s with orderStore := NewOrderStore s.Symbol }
      ⟨s, { session with registered := session.registered ++ runHandlers }, none⟩

/-! ## Binance trade conversion (convert.go) -/

/-- The package `fixedpoint` is outside the sources: its string parser and its
product are parameters. A `fixedpoint.Value` is the underlying integer. -/
structure Fixedpoint where
  NewFromString : String → Except Error Int
  Mul : Int → Int → Int

/-- Whether `NewFromString` accepts the string. -/
def Fixedpoint.parses (fp : Fixedpoint) (str : String) : Bool :=
  match fp.NewFromString str with
  | .ok _ => true
  | .error _ => false

/-- The value `NewFromString` gives for an accepted string (0 otherwise). -/
def Fixedpoint.parsed (fp : Fixedpoint) (str : String) : Int :=
  match fp.NewFromString str with
  | .ok v => v
  | .error _ => 0

/-- Go `len` of a string: its length in bytes. -/
def len (str : String) : Nat := str.utf8ByteSize

/-- Go conversion `uint64(x)` of an `int64`. -/
def uint64 (x : Int) : Nat := (x % 2 ^ 64).toNat

/-- Wrap an integer to the `int64` range (two's complement). -/
def wrapInt64 (x : Int) : Int := (x + 2 ^ 63) % 2 ^ 64 - 2 ^ 63

/-- `millisecondTime`: `time.Unix(0, t*int64(time.Millisecond))`, as Unix
nanoseconds. -/
def millisecondTime (t : Int) : Int := wrapInt64 (t * 1000000)

/-- `types.SideType`. -/
inductive SideType where
  | SideTypeBuy
  | SideTypeSell
deriving DecidableEq, Repr

/-- `binance.TradeV3` of the go-binance client. -/
structure TradeV3 where
  ID : Int
  Symbol : String
  OrderID : Int
  Price : String
  Quantity : String
  QuoteQuantity : String
  Commission : String
  CommissionAsset : String
  Time : Int
  IsBuyer : Bool
  IsMaker : Bool
  IsIsolated : Bool
deriving DecidableEq, Repr

/-- `futures.AccountTrade` of the go-binance client. -/
structure AccountTrade where
  Buyer : Bool
  Commission : String
  CommissionAsset : String
  ID : Int
  Maker : Bool
  OrderID : Int
  Price : String
  Quantity : String
  QuoteQuantity : String
  Symbol : String
  Time : Int
deriving DecidableEq, Repr

/-- `types.Trade`, the fields the two conversions set. -/
structure Trade where
  ID : Nat
  OrderID : Nat
  Exchange : String
  Price : Int
  Quantity : Int
  QuoteQuantity : Int
  Symbol : String
  Side : SideType
  IsBuyer : Bool
  IsMaker : Bool
  Time : Int
  Fee : Int
  FeeCurrency : String
  IsMargin : Bool
  IsFutures : Bool
  IsIsolated : Bool
deriving DecidableEq, Repr

/-- `toGlobalTrade`: the trade pointer and the error it returns. -/
def toGlobalTrade (fp : Fixedpoint) (t : TradeV3) (isMargin : Bool) : Option Trade × Option Error :=
  let side := if t.IsBuyer then SideType.SideTypeBuy else SideType.SideTypeSell
  match fp.NewFromString t.Price with
  | .error err => (none, some (Error.Wrapf err ("price parse error, price: " ++ t.Price)))
  | .ok price =>
    match fp.NewFromString t.Quantity with
    | .error err =>
      (none, some (Error.Wrapf err ("quantity parse error, quantity: " ++ t.Quantity)))
    | .ok quantity =>
      let quoteQuantity : Except Error Int :=
        if len t.QuoteQuantity > 0 then
          match fp.NewFromString t.QuoteQuantity with
          | .error err =>
            .error (Error.Wrapf err
              ("quote quantity parse error, quoteQuantity: " ++ t.QuoteQuantity))
          | .ok v => .ok v
        else .ok (fp.Mul price quantity)
      match quoteQuantity with
      | .error err => (none, some err)
      | .ok quoteQuantity =>
        match fp.NewFromString t.Commission with
        | .error err =>
          (none, some (Error.Wrapf err ("commission parse error, commission: " ++ t.Commission)))
        | .ok fee =>
          (some
            { ID := uint64 t.ID, OrderID := uint64 t.OrderID, Price := price,
              Symbol := t.Symbol, Exchange := "binance", Quantity := quantity,
              QuoteQuantity := quoteQuantity, Side := side, IsBuyer := t.IsBuyer,
              IsMaker := t.IsMaker, Fee := fee, FeeCurrency := t.CommissionAsset,
              Time := millisecondTime t.Time, IsMargin := isMargin, IsFutures := false,
              IsIsolated := t.IsIsolated },
            none)

/-- `toGlobalFuturesTrade`: the trade pointer and the error it returns. -/
def toGlobalFuturesTrade (fp : Fixedpoint) (t : AccountTrade) : Option Trade × Option Error :=
  let side := if t.Buyer then SideType.SideTypeBuy else SideType.SideTypeSell
  match fp.NewFromString t.Price with
  | .error err => (none, some (Error.Wrapf err ("price parse error, price: " ++ t.Price)))
  | .ok price =>
    match fp.NewFromString t.Quantity with
    | .error err =>
      (none, some (Error.Wrapf err ("quantity parse error, quantity: " ++ t.Quantity)))
    | .ok quantity =>
      let quoteQuantity : Except Error Int :=
        if len t.QuoteQuantity > 0 then
          match fp.NewFromString t.QuoteQuantity with
          | .error err =>
            .error (Error.Wrapf err
              ("quote quantity parse error, quoteQuantity: " ++ t.QuoteQuantity))
          | .ok v => .ok v
        else .ok (fp.Mul price quantity)
      match quoteQuantity with
      | .error err => (none, some err)
      | .ok quoteQuantity =>
        match fp.NewFromString t.Commission with
        | .error err =>
          (none, some (Error.Wrapf err ("commission parse error, commission: " ++ t.Commission)))
        | .ok fee =>
          (some
            { ID := uint64 t.ID, OrderID := uint64 t.OrderID, Price := price,
              Symbol := t.Symbol, Exchange := "binance", Quantity := quantity,
              QuoteQuantity := quoteQuantity, Side := side, IsBuyer := t.Buyer,
              IsMaker := t.Maker, Fee := fee, FeeCurrency := t.CommissionAsset,
              Time := millisecondTime t.Time, IsMargin := false, IsFutures := true,
              IsIsolated := false },
            none)

/-- The numeric strings of a trade all parse: price, quantity and commission,
and the quote quantity when it is not the empty string. -/
def numericStringsParse (fp : Fixedpoint) (price quantity quoteQuantity commission : String) :
    Bool :=
  fp.parses price && fp.parses quantity && (quoteQuantity == "" || fp.parses quoteQuantity)
    && fp.parses commission

/-- A small parser for worked examples: the decimal strings "1" to "3", in
units of one. -/
def exampleFixedpoint : Fixedpoint :=
  { NewFromString := fun str =>
      if str = "1" then .ok 1 else if str = "2" then .ok 2 else if str = "3" then .ok 3
      else .error (Error.errorf "failed to parse float"),
    Mul := fun a b => a * b }

/-- A worked example: a saved state with a long position. -/
def exampleState : State :=
  { Position := some ⟨"BTCUSDT", "BTC", "USDT", 5, -7, 2⟩, AccumulatedVolume := 1,
    AccumulatedPnL := 2, AccumulatedProfit := 3, AccumulatedLoss := 4,
    AccumulatedSince := 1600000000 }

/-- A worked example: a strategy on "BTCUSDT" over an empty, healthy store. -/
def exampleStrategy : Strategy :=
  { Persistence := ⟨none, fun _ => none⟩, Symbol := "BTCUSDT", Quantity := 1, Spread := 1,
    market := ⟨"BTCUSDT", "BTC", "USDT", 1⟩, state := some exampleState,
    activeMakerOrders := ⟨[]⟩, orderStore := ⟨"BTCUSDT", []⟩, groupID := 0 }

/-! ## Order types and stream names (convert.go) -/

/-- How a Go call ends: it returns a value or it panics. -/
inductive GoResult (α : Type) where
  | returned (a : α)
  | panicked (msg : String)
deriving DecidableEq, Repr

namespace Types

/-- Go `type OrderType string` of package types. -/
abbrev OrderType := String

/-- Modelled from the spec: the order-type constants of package types (not
among the sources): limit, limit-maker, market and the two stop variants. -/
def OrderTypeLimit : OrderType := "LIMIT"

/-- Modelled from the spec: the limit-maker constant of package types. -/
def OrderTypeLimitMaker : OrderType := "LIMIT_MAKER"

/-- Modelled from the spec: the market constant of package types. -/
def OrderTypeMarket : OrderType := "MARKET"

/-- Modelled from the spec: the stop-limit constant of package types. -/
def OrderTypeStopLimit : OrderType := "STOP_LIMIT"

/-- Modelled from the spec: the stop-market constant of package types. -/
def OrderTypeStopMarket : OrderType := "STOP_MARKET"

/-- Go `type Channel string` of package types. -/
abbrev Channel := String

/-- Modelled from the spec: the kline channel of package types (not among the
sources); the comment of `convertSubscription` gives the name "kline". -/
def KLineChannel : Channel := "kline"

/-- Modelled from the spec: the order-book channel of package types. -/
def BookChannel : Channel := "book"

/-- Modelled from the spec: the book-ticker channel of package types. -/
def BookTickerChannel : Channel := "bookticker"

/-- Go `type Depth string` of package types. -/
abbrev Depth := String

/-- Modelled from the spec: the depth constants of package types (not among
the sources). -/
def DepthLevelFull : Depth := "FULL"

/-- Modelled from the spec: the medium depth constant of package types. -/
def DepthLevelMedium : Depth := "MEDIUM"

/-- Modelled from the spec: the five-level depth constant of package types. -/
def DepthLevel5 : Depth := "5"

/-- Go `type Speed string` of package types. -/
abbrev Speed := String

/-- Modelled from the spec: the speed constants of package types (not among
the sources). -/
def SpeedHigh : Speed := "HIGH"

/-- Modelled from the spec: the low speed constant of package types. -/
def SpeedLow : Speed := "LOW"

/-- `types.SubscribeOptions`. -/
structure SubscribeOptions where
  Interval : String
  Depth : Depth
  Speed : Speed
deriving DecidableEq, Repr

/-- `types.Subscription`. -/
structure Subscription where
  Symbol : String
  Channel : Channel
  Options : SubscribeOptions
deriving DecidableEq, Repr

end Types

namespace Binance

/-- `binance.OrderType` of the go-binance client, a string type. -/
abbrev OrderType := String

/-- The go-binance constant `OrderTypeLimit`. -/
def OrderTypeLimit : OrderType := "LIMIT"

/-- The go-binance constant `OrderTypeMarket`. -/
def OrderTypeMarket : OrderType := "MARKET"

/-- The go-binance constant `OrderTypeLimitMaker`. -/
def OrderTypeLimitMaker : OrderType := "LIMIT_MAKER"

/-- The go-binance constant `OrderTypeStopLoss`. -/
def OrderTypeStopLoss : OrderType := "STOP_LOSS"

/-- The go-binance constant `OrderTypeStopLossLimit`. -/
def OrderTypeStopLossLimit : OrderType := "STOP_LOSS_LIMIT"

/-- The go-binance constant `OrderTypeTakeProfitLimit`. -/
def OrderTypeTakeProfitLimit : OrderType := "TAKE_PROFIT_LIMIT"

end Binance

namespace Futures

/-- `futures.OrderType` of the go-binance client, a string type. -/
abbrev OrderType := String

/-- The go-binance futures constant `OrderTypeLimit`. -/
def OrderTypeLimit : OrderType := "LIMIT"

/-- The go-binance futures constant `OrderTypeMarket`. -/
def OrderTypeMarket : OrderType := "MARKET"

end Futures

/-- `toLocalOrderType`: the Binance order type and the error. -/
def toLocalOrderType (orderType : Types.OrderType) : Binance.OrderType × Option Error :=
  if orderType = Types.OrderTypeLimitMaker then (Binance.OrderTypeLimitMaker, none)
  else if orderType = Types.OrderTypeLimit then (Binance.OrderTypeLimit, none)
  else if orderType = Types.OrderTypeStopLimit then (Binance.OrderTypeStopLossLimit, none)
  else if orderType = Types.OrderTypeStopMarket then (Binance.OrderTypeStopLoss, none)
  else if orderType = Types.OrderTypeMarket then (Binance.OrderTypeMarket, none)
  else
    ("", some (Error.errorf
      ("can not convert to local order, order type " ++ orderType ++ " not supported")))

/-- `toLocalFuturesOrderType`: the futures order type and the error. -/
def toLocalFuturesOrderType (orderType : Types.OrderType) : Futures.OrderType × Option Error :=
  if orderType = Types.OrderTypeLimit ∨ orderType = Types.OrderTypeLimitMaker then
    (Futures.OrderTypeLimit, none)
  else if orderType = Types.OrderTypeMarket then (Futures.OrderTypeMarket, none)
  else
    ("", some (Error.errorf
      ("can not convert to local order, order type " ++ orderType ++ " not supported")))

/-- `toGlobalOrderType`; the default case logs and returns the empty type. -/
def toGlobalOrderType (orderType : Binance.OrderType) : Types.OrderType :=
  if orderType = Binance.OrderTypeLimit ∨ orderType = Binance.OrderTypeLimitMaker
      ∨ orderType = Binance.OrderTypeTakeProfitLimit then Types.OrderTypeLimit
  else if orderType = Binance.OrderTypeMarket then Types.OrderTypeMarket
  else if orderType = Binance.OrderTypeStopLossLimit then Types.OrderTypeStopLimit
  else if orderType = Binance.OrderTypeStopLoss then Types.OrderTypeStopMarket
  else ""

/-- `convertSubscription`. `ToLower` is `strings.ToLower` and `optionsString`
is `SubscribeOptions.String` of package types (not among the sources). -/
def convertSubscription (ToLower : String → String)
    (optionsString : Types.SubscribeOptions → String) (s : Types.Subscription) : String :=
  if s.Channel = Types.KLineChannel then
    ToLower s.Symbol ++ "@" ++ s.Channel ++ "_" ++ optionsString s.Options
  else if s.Channel = Types.BookChannel then
    let n := ToLower s.Symbol ++ "@depth"
    let n :=
      if s.Options.Depth = Types.DepthLevel5 then n ++ "5"
      else if s.Options.Depth = Types.DepthLevelMedium then n ++ "20"
      else if s.Options.Depth = Types.DepthLevelFull then n
      else n
    let n :=
      if s.Options.Speed = Types.SpeedHigh then n ++ "@100ms"
      else if s.Options.Speed = Types.SpeedLow then n ++ "@1000ms"
      else n
    n
  else if s.Channel = Types.BookTickerChannel then ToLower s.Symbol ++ "@bookTicker"
  else ToLower s.Symbol ++ "@" ++ s.Channel

/-- The level suffix of a depth stream name as the stream-name rule states it:
"5" for five levels, "20" for the medium depth, nothing otherwise. -/
def levelSuffix (d : Types.Depth) : String :=
  if d = Types.DepthLevel5 then "5" else if d = Types.DepthLevelMedium then "20" else ""

/-- The speed suffix of a depth stream name as the stream-name rule states it:
"@100ms" for the high speed, "@1000ms" for the low speed, nothing otherwise. -/
def speedSuffix (sp : Types.Speed) : String :=
  if sp = Types.SpeedHigh then "@100ms" else if sp = Types.SpeedLow then "@1000ms" else ""

/-! ## Binance order conversion (convert.go) -/

/-- The zero value `types.Market{}`. -/
def Market.zero : Market := ⟨"", "", "", 0⟩

/-- `types.SubmitOrder`. `Quantity` and `Price` hold a fixed-point value: in
convert.go the field itself, in strategy.go the value whose `Float64()` the
field is given (the conversion keeps the sign). `Side`, `Type_` (the Go field `Type`)
and `TimeInForce` are Go string types. -/
structure SubmitOrder where
  ClientOrderID : String
  Symbol : String
  Side : String
  Type_ : Types.OrderType
  Quantity : Int
  Price : Int
  Market : Market
  TimeInForce : String
  GroupID : Nat
deriving DecidableEq, Repr

namespace Types

/-- The string of `types.SideTypeBuy`. -/
def SideTypeBuy : String := "BUY"

/-- The string of `types.SideTypeSell`. -/
def SideTypeSell : String := "SELL"

/-- `types.Order` as `toGlobalOrder` fills it. -/
structure Order where
  SubmitOrder : SubmitOrder
  Exchange : String
  IsWorking : Bool
  OrderID : Nat
  Status : String
  ExecutedQuantity : Int
  CreationTime : Int
  UpdateTime : Int
  IsMargin : Bool
  IsIsolated : Bool
deriving DecidableEq, Repr

end Types

namespace Binance

/-- `binance.Order` of the go-binance client, the fields `toGlobalOrder` reads. -/
structure Order where
  Symbol : String
  OrderID : Int
  ClientOrderID : String
  Price : String
  OrigQuantity : String
  ExecutedQuantity : String
  Status : String
  TimeInForce : String
  Type_ : OrderType
  Side : String
  Time : Int
  UpdateTime : Int
  IsWorking : Bool
  IsIsolated : Bool
deriving DecidableEq, Repr

end Binance

/-- `toGlobalSideType`; the default case logs and returns the empty side. -/
def toGlobalSideType (side : String) : String :=
  if side = "BUY" then Types.SideTypeBuy
  else if side = "SELL" then Types.SideTypeSell
  else ""

/-- `toGlobalOrderStatus`: the five known statuses map to the constants of
package types, whose strings are the same; any other status is converted as
it is. -/
def toGlobalOrderStatus (orderStatus : String) : String :=
  if orderStatus = "NEW" then "NEW"
  else if orderStatus = "REJECTED" then "REJECTED"
  else if orderStatus = "CANCELED" then "CANCELED"
  else if orderStatus = "PARTIALLY_FILLED" then "PARTIALLY_FILLED"
  else if orderStatus = "FILLED" then "FILLED"
  else orderStatus

/-- The Go `Must` form of the parser, `fixedpoint.MustNewFromString` (not among
the sources): the value of `NewFromString`, and a panic where that reports an
error. -/
def Fixedpoint.MustNewFromString (fp : Fixedpoint) (input : String) : GoResult Int :=
  match fp.NewFromString input with
  | .ok v => GoResult.returned v
  | .error _ => GoResult.panicked ("can not parse " ++ input ++ " into fixedpoint")

/-- `toGlobalOrder`. `MustNewFromString` is a parameter: a call that returns a
value or panics. The three calls run in the order of the composite literal:
`OrigQuantity`, `Price`, `ExecutedQuantity`. The error returned is the literal
`nil`. -/
def toGlobalOrder (MustNewFromString : String → GoResult Int) (binanceOrder : Binance.Order)
    (isMargin : Bool) : GoResult (Option Types.Order × Option Error) :=
  match MustNewFromString binanceOrder.OrigQuantity with
  | .panicked msg => .panicked msg
  | .returned quantity =>
    match MustNewFromString binanceOrder.Price with
    | .panicked msg => .panicked msg
    | .returned price =>
      match MustNewFromString binanceOrder.ExecutedQuantity with
      | .panicked msg => .panicked msg
      | .returned executedQuantity =>
        .returned
          (some
            { SubmitOrder :=
                { ClientOrderID := binanceOrder.ClientOrderID, Symbol := binanceOrder.Symbol,
                  Side := toGlobalSideType binanceOrder.Side,
                  Type_ := toGlobalOrderType binanceOrder.Type_, Quantity := quantity,
                  Price := price, Market := Market.zero,
                  TimeInForce := binanceOrder.TimeInForce, GroupID := 0 },
              Exchange := "binance", IsWorking := binanceOrder.IsWorking,
              OrderID := uint64 binanceOrder.OrderID,
              Status := toGlobalOrderStatus binanceOrder.Status,
              ExecutedQuantity := executedQuantity,
              CreationTime := millisecondTime binanceOrder.Time,
              UpdateTime := millisecondTime binanceOrder.UpdateTime, IsMargin := isMargin,
              IsIsolated := binanceOrder.IsIsolated },
            none)

/-- The loop of `toGlobalOrders` from the orders collected so far. -/
def toGlobalOrdersFrom (MustNewFromString : String → GoResult Int) :
    List Binance.Order → List Types.Order → GoResult (List Types.Order × Option Error)
  | [], orders => .returned (orders, none)
  | binanceOrder :: rest, orders =>
    match toGlobalOrder MustNewFromString binanceOrder false with
    | .panicked msg => .panicked msg
    | .returned (_, some err) => .returned (orders, some err)
    | .returned (none, none) => .panicked "invalid memory address or nil pointer dereference"
    | .returned (some order, none) =>
      toGlobalOrdersFrom MustNewFromString rest (orders ++ [order])

/-- `toGlobalOrders`. -/
def toGlobalOrders (MustNewFromString : String → GoResult Int)
    (binanceOrders : List Binance.Order) : GoResult (List Types.Order × Option Error) :=
  toGlobalOrdersFrom MustNewFromString binanceOrders []

/-- A worked example: a Binance order. -/
def exampleBinanceOrder : Binance.Order :=
  { Symbol := "BTCUSDT", OrderID := 42, ClientOrderID := "x-1", Price := "2",
    OrigQuantity := "1", ExecutedQuantity := "1", Status := "NEW", TimeInForce := "GTC",
    Type_ := "LIMIT", Side := "BUY", Time := 1600000000000, UpdateTime := 1600000000000,
    IsWorking := true, IsIsolated := false }

/-! ## Order placement (strategy.go) -/

/-- The answer of `QueryTicker` as `placeOrders` uses it: `midPrice` is
`fixedpoint.NewFromFloat((ticker.Buy + ticker.Sell) / 2)`, the float average
being computed outside the embedding. -/
structure Ticker where
  midPrice : Int
deriving DecidableEq, Repr

/-- What the environment answers to `placeOrders`: the ticker query and the
order executor's `SubmitOrders` (the created orders and the error). -/
structure PlaceEnv where
  ticker : Except Error Ticker
  SubmitOrders : List SubmitOrder → List Order × Option Error

/-- What `placeOrders` leaves behind: the argument list of the `SubmitOrders`
call (`none` when the call is not made), the order store and the book. -/
structure PlaceResult where
  submitted : Option (List SubmitOrder)
  orderStore : OrderStore
  activeMakerOrders : LocalActiveOrderBook
deriving DecidableEq, Repr

/-- `Strategy.placeOrders`. `one` is `fixedpoint.NewFromFloat(1.0)`; the sums
and the negation are `int64` operations; reading `s.state.Position.Base`
through a nil pointer panics. -/
def placeOrders (fp : Fixedpoint) (one : Int) (s : Strategy) (env : PlaceEnv) :
    GoResult PlaceResult :=
  match env.ticker with
  | .error _ => .returned ⟨none, s.orderStore, s.activeMakerOrders⟩
  | .ok ticker =>
    let midPrice := ticker.midPrice
    let askPrice := fp.Mul midPrice (wrapInt64 (one + s.Spread))
    let bidPrice := fp.Mul midPrice (wrapInt64 (one - s.Spread))
    match s.state.bind (fun st => st.Position) with
    | none => .panicked "invalid memory address or nil pointer dereference"
    | some position =>
      let base := position.Base
      let sellOrder : SubmitOrder :=
        { ClientOrderID := "", Symbol := s.Symbol, Side := Types.SideTypeSell,
          Type_ := Types.OrderTypeLimitMaker, Quantity := s.Quantity, Price := askPrice,
          Market := s.market, TimeInForce := "GTC", GroupID := s.groupID }
      let buyOrder : SubmitOrder :=
        { ClientOrderID := "", Symbol := s.Symbol, Side := Types.SideTypeBuy,
          Type_ := Types.OrderTypeLimitMaker, Quantity := s.Quantity, Price := bidPrice,
          Market := s.market, TimeInForce := "GTC", GroupID := s.groupID }
      let minQuantity := s.market.MinQuantity
      let submitOrders : List SubmitOrder :=
        if base > wrapInt64 (-minQuantity) ∧ base < minQuantity then [sellOrder, buyOrder]
        else if base > minQuantity then [{ sellOrder with Quantity := base }]
        else if base < wrapInt64 (-minQuantity) then [{ buyOrder with Quantity := base }]
        else []
      let created := env.SubmitOrders submitOrders
      .returned
        ⟨some submitOrders, s.orderStore.Add created.1, s.activeMakerOrders.Add created.1⟩

/-- A worked example: the executor acknowledges every submitted order with a
fresh identifier. -/
def exampleExecutor (orders : List SubmitOrder) : List Order × Option Error :=
  (orders.enum.map (fun p => ⟨100 + p.1, p.2.Symbol⟩), none)

/-- A worked example: `exampleStrategy` holding a short position of 5 with a
minimum quantity of 1. -/
def exampleShortStrategy : Strategy :=
  { exampleStrategy with
    state := some { exampleState with Position := some ⟨"BTCUSDT", "BTC", "USDT", -5, 7, 2⟩ } }

/-! ## Facts about the book and the store -/

theorem OrderStore.Exists_Add (st : OrderStore) (os : List Order) (oID : Nat) :
    (st.Add os).Exists oID = (st.Exists oID || os.any (fun x => x.OrderID == oID)) := by
  induction os generalizing st with
  | nil => simp [OrderStore.Add]
  | cons o os ih =>
    have hstep : st.Add (o :: os)
        = OrderStore.Add ⟨st.Symbol, st.orders.filter (fun x => x.OrderID != o.OrderID) ++ [o]⟩ os := by
      simp [OrderStore.Add]
    rw [hstep, ih, Bool.eq_iff_iff]
    simp only [OrderStore.Exists, List.any_append, List.any_cons, List.any_nil, Bool.or_false,
      Bool.or_eq_true, List.any_eq_true, List.mem_filter, beq_iff_eq, bne_iff_ne]
    constructor
    · rintro ((⟨x, ⟨hx, -⟩, hid⟩ | h) | h)
      · exact Or.inl ⟨x, hx, hid⟩
      · exact Or.inr (Or.inl h)
      · exact Or.inr (Or.inr h)
    · rintro (⟨x, hx, hid⟩ | h | h)
      · by_cases hxo : x.OrderID = o.OrderID
        · exact Or.inl (Or.inr (hxo ▸ hid))
        · exact Or.inl (Or.inl ⟨x, ⟨hx, hxo⟩, hid⟩)
      · exact Or.inl (Or.inr h)
      · exact Or.inr h

theorem OrderStore.Exists_NewOrderStore_Add (symbol : String) (os : List Order) (oID : Nat) :
    ((NewOrderStore symbol).Add os).Exists oID = os.any (fun x => x.OrderID == oID) := by
  rw [OrderStore.Exists_Add]
  simp [NewOrderStore, OrderStore.Exists]

theorem foldl_Remove_orders (p : Order → Bool) (l : List Order) (b : LocalActiveOrderBook) :
    (l.foldl (fun b o => if p o then b.Remove o else b) b).orders
      = b.orders.filter (fun x => !l.any (fun o => p o && o.OrderID == x.OrderID)) := by
  induction l generalizing b with
  | nil => simp
  | cons o l ih =>
    rw [List.foldl_cons, ih]
    by_cases hp : p o = true
    · simp only [hp, if_true, LocalActiveOrderBook.Remove, List.filter_filter, List.any_cons,
        Bool.true_and]
      apply List.filter_congr
      intro x _
      by_cases hx : x.OrderID = o.OrderID
      · simp [hx]
      · have h1 : (o.OrderID == x.OrderID) = false := by
          simpa using fun h : o.OrderID = x.OrderID => hx h.symm
        have h2 : (x.OrderID != o.OrderID) = true := by simpa using hx
        rw [h1, h2]
        simp
    · have hp2 : p o = false := by simpa using hp
      simp [hp2]

theorem evictClosed_orders (symbol : String) (book : LocalActiveOrderBook) (openOrders : List Order) :
    (evictClosed symbol book openOrders).Orders
      = book.Orders.filter (fun o => openOrders.any (fun x => x.OrderID == o.OrderID)) := by
  unfold evictClosed LocalActiveOrderBook.Orders
  simp only [OrderStore.Exists_NewOrderStore_Add]
  rw [foldl_Remove_orders (fun o => !openOrders.any (fun x => x.OrderID == o.OrderID))]
  apply List.filter_congr
  intro x hx
  rw [Bool.eq_iff_iff]
  simp only [Bool.not_eq_true_eq_eq_false, Bool.not_eq_true, List.any_eq_false, Bool.and_eq_true,
    beq_iff_eq, not_and, List.any_eq_true, Bool.not_eq_eq_eq_not, Bool.not_true]
  constructor
  · intro h
    by_contra hno
    have := h x hx (by
      intro y hy
      intro hyx
      exact hno ⟨y, hy, hyx⟩)
    exact this rfl
  · rintro ⟨y, hy, hyx⟩ o _ hno hox
    exact hno y hy (hyx.trans hox.symm)

theorem cancelLoop_of_empty (symbol : String) (book : LocalActiveOrderBook) (es : List IterEnv)
    (h : book.NumOfOrders = 0) : cancelLoop symbol book es = ⟨true, book, [], 0⟩ := by
  cases es <;> simp [cancelLoop, h]

theorem cancelLoop_returned_empty (symbol : String) (es : List IterEnv) :
    ∀ book : LocalActiveOrderBook, (cancelLoop symbol book es).returned = true →
      (cancelLoop symbol book es).book.NumOfOrders = 0 := by
  induction es with
  | nil =>
    intro book h
    by_cases hb : book.NumOfOrders > 0
    · simp [cancelLoop, hb] at h
    · simp only [cancelLoop, hb, if_false]
      omega
  | cons e es ih =>
    intro book h
    by_cases hb : book.NumOfOrders > 0
    · simp only [cancelLoop, hb, if_true] at h ⊢
      exact ih _ h
    · simp only [cancelLoop, hb, if_false]
      omega

theorem cancelLoop_cons_of_pos (symbol : String) (book : LocalActiveOrderBook) (e : IterEnv)
    (es : List IterEnv) (h : book.NumOfOrders > 0) :
    cancelLoop symbol book (e :: es)
      = ⟨(cancelLoop symbol (cancelLoopBody symbol book e).book es).returned,
         (cancelLoop symbol (cancelLoopBody symbol book e).book es).book,
         (cancelLoopBody symbol book e).calls
           ++ (cancelLoop symbol (cancelLoopBody symbol book e).book es).calls,
         (cancelLoop symbol (cancelLoopBody symbol book e).book es).iterations + 1⟩ := by
  simp [cancelLoop, h]

theorem cancelLoopBody_ok_query (symbol : String) (book : LocalActiveOrderBook) (e : IterEnv)
    (hc : e.cancelErr = none)
    (hne : ((book.streamRemove e.streamOnCancel).streamRemove e.streamOnWait).NumOfOrders > 0) :
    cancelLoopBody symbol book e
      = match e.queryResult with
        | .error _ =>
          ⟨((book.streamRemove e.streamOnCancel).streamRemove e.streamOnWait).streamRemove
              e.streamOnQuery,
            [Call.CancelOrders book.Orders, Call.QueryOpenOrders symbol]⟩
        | .ok openOrders =>
          ⟨evictClosed symbol
              (((book.streamRemove e.streamOnCancel).streamRemove e.streamOnWait).streamRemove
                e.streamOnQuery) openOrders,
            [Call.CancelOrders book.Orders, Call.QueryOpenOrders symbol]⟩ := by
  unfold cancelLoopBody
  simp only [hc]
  cases e.selected <;> (simp only [verifyOpenOrders, hne, if_true]; cases e.queryResult <;> rfl)

theorem cancelLoopBody_ok_empty (symbol : String) (book : LocalActiveOrderBook) (e : IterEnv)
    (hc : e.cancelErr = none)
    (he : ((book.streamRemove e.streamOnCancel).streamRemove e.streamOnWait).NumOfOrders = 0) :
    cancelLoopBody symbol book e
      = ⟨(book.streamRemove e.streamOnCancel).streamRemove e.streamOnWait,
          [Call.CancelOrders book.Orders]⟩ := by
  unfold cancelLoopBody
  simp only [hc]
  cases e.selected <;> simp [verifyOpenOrders, he]

theorem cancelLoopBody_cancel_failed (symbol : String) (book : LocalActiveOrderBook) (e : IterEnv)
    (err : Error) (hc : e.cancelErr = some err) :
    cancelLoopBody symbol book e
      = ⟨book.streamRemove e.streamOnCancel, [Call.CancelOrders book.Orders]⟩ := by
  unfold cancelLoopBody
  simp only [hc]

theorem mem_streamRemove (b : LocalActiveOrderBook) (ids : List Nat) (o : Order) :
    o ∈ (b.streamRemove ids).Orders ↔ o ∈ b.Orders ∧ o.OrderID ∉ ids := by
  simp [LocalActiveOrderBook.streamRemove, LocalActiveOrderBook.Orders, List.mem_filter]

theorem streamRemove_nil (b : LocalActiveOrderBook) : b.streamRemove [] = b := by
  simp [LocalActiveOrderBook.streamRemove]

theorem cancelLoopBody_calls_head (symbol : String) (book : LocalActiveOrderBook) (e : IterEnv) :
    ∃ rest, (cancelLoopBody symbol book e).calls = Call.CancelOrders book.Orders :: rest := by
  unfold cancelLoopBody
  cases e.cancelErr with
  | some err => exact ⟨[], rfl⟩
  | none =>
    cases e.selected <;>
      (simp only [verifyOpenOrders]
       split
       · cases e.queryResult <;> exact ⟨_, rfl⟩
       · exact ⟨[], rfl⟩)

theorem evictClosed_nil_NumOfOrders (symbol : String) (book : LocalActiveOrderBook) :
    (evictClosed symbol book []).NumOfOrders = 0 := by
  have h := evictClosed_orders symbol book []
  simp only [List.any_nil, List.filter_false] at h
  simpa [LocalActiveOrderBook.NumOfOrders, LocalActiveOrderBook.Orders] using h

/-! ## Claims about `cancelOrders` -/

/-- C1: whenever `cancelOrders` returns, the active maker order book is empty,
for every initial book, every script of exchange answers and stream removals and
every case the `select` takes. -/
theorem cancelOrders_returns_with_empty_book (symbol : String) (book : LocalActiveOrderBook)
    (e0 : InitEnv) (es : List IterEnv)
    (hret : (cancelOrders symbol book e0 es).returned = true) :
    (cancelOrders symbol book e0 es).book.NumOfOrders = 0 := by
  unfold cancelOrders at hret ⊢
  exact cancelLoop_returned_empty symbol es _ hret

/-- Witness for C1: a book of two orders, the first bulk cancel fails, the
stream removes one order, the REST snapshot evicts the other; the run returns. -/
theorem cancelOrders_returns_with_empty_book_witness :
    (cancelOrders "BTCUSDT" ⟨[⟨1, "BTCUSDT"⟩, ⟨2, "BTCUSDT"⟩]⟩ ⟨some (Error.errorf "timeout"), []⟩
        [⟨none, [1], SelectCase.timeAfter, [], .ok [], []⟩]).returned = true
    ∧ (cancelOrders "BTCUSDT" ⟨[⟨1, "BTCUSDT"⟩, ⟨2, "BTCUSDT"⟩]⟩ ⟨some (Error.errorf "timeout"), []⟩
        [⟨none, [1], SelectCase.timeAfter, [], .ok [], []⟩]).book.NumOfOrders = 0 :=
  ⟨by decide, cancelOrders_returns_with_empty_book _ _ _ _ (by decide)⟩

/-- C2: with the context already cancelled in every iteration the loop does not
stop. When the exchange keeps reporting the order open, after `n` script
entries the loop has made `n` iterations, each with a `CancelOrders` and a
`QueryOpenOrders` call, and has not returned; when `CancelOrders` keeps failing
with the context's error, it has made `n` further `CancelOrders` calls and has
not returned. -/
theorem cancelLoop_ctxDone_keeps_retrying (n : Nat) :
    cancelLoop "BTCUSDT" ⟨[⟨1, "BTCUSDT"⟩]⟩
        (List.replicate n ⟨none, [], SelectCase.ctxDone, [], .ok [⟨1, "BTCUSDT"⟩], []⟩)
      = ⟨false, ⟨[⟨1, "BTCUSDT"⟩]⟩,
          (List.replicate n
            [Call.CancelOrders [⟨1, "BTCUSDT"⟩], Call.QueryOpenOrders "BTCUSDT"]).flatten, n⟩
    ∧ cancelLoop "BTCUSDT" ⟨[⟨1, "BTCUSDT"⟩]⟩
        (List.replicate n ⟨some (Error.errorf "context canceled"), [], SelectCase.ctxDone, [],
          .error (Error.errorf "context canceled"), []⟩)
      = ⟨false, ⟨[⟨1, "BTCUSDT"⟩]⟩,
          List.replicate n (Call.CancelOrders [⟨1, "BTCUSDT"⟩]), n⟩ := by
  induction n with
  | zero => exact ⟨by decide, by decide⟩
  | succ n ih =>
    have hbody : cancelLoopBody "BTCUSDT" ⟨[⟨1, "BTCUSDT"⟩]⟩
        ⟨none, [], SelectCase.ctxDone, [], .ok [⟨1, "BTCUSDT"⟩], []⟩
        = ⟨⟨[⟨1, "BTCUSDT"⟩]⟩,
            [Call.CancelOrders [⟨1, "BTCUSDT"⟩], Call.QueryOpenOrders "BTCUSDT"]⟩ := by
      decide
    have hbody2 : cancelLoopBody "BTCUSDT" ⟨[⟨1, "BTCUSDT"⟩]⟩
        ⟨some (Error.errorf "context canceled"), [], SelectCase.ctxDone, [],
          .error (Error.errorf "context canceled"), []⟩
        = ⟨⟨[⟨1, "BTCUSDT"⟩]⟩, [Call.CancelOrders [⟨1, "BTCUSDT"⟩]]⟩ := by
      decide
    constructor
    · rw [List.replicate_succ, cancelLoop_cons_of_pos _ _ _ _ (by decide), hbody, ih.1]
      simp [List.replicate_succ]
    · rw [List.replicate_succ, cancelLoop_cons_of_pos _ _ _ _ (by decide), hbody2, ih.2]
      simp [List.replicate_succ]

/-- C3: in an iteration where the in-loop `CancelOrders` succeeds, the book is
non-empty after the wait and `QueryOpenOrders` succeeds with snapshot `S`, the
book afterwards holds exactly the orders the eviction loop found in the book
whose `OrderID` occurs in `S`: orders absent from `S` are removed, orders
present in `S` are kept, and no order of `S` is added. Relative to the book at
the start of the iteration these are the orders the stream did not remove. -/
theorem cancelLoopBody_evicts_orders_absent_from_snapshot (symbol : String)
    (book : LocalActiveOrderBook) (e : IterEnv) (S : List Order)
    (hc : e.cancelErr = none)
    (hne : ((book.streamRemove e.streamOnCancel).streamRemove e.streamOnWait).NumOfOrders > 0)
    (hq : e.queryResult = .ok S) :
    (cancelLoopBody symbol book e).calls
        = [Call.CancelOrders book.Orders, Call.QueryOpenOrders symbol]
    ∧ (cancelLoopBody symbol book e).book.Orders
        = ((((book.streamRemove e.streamOnCancel).streamRemove e.streamOnWait).streamRemove
              e.streamOnQuery).Orders).filter
            (fun o => S.any (fun x => x.OrderID == o.OrderID))
    ∧ (∀ o : Order, o ∈ (cancelLoopBody symbol book e).book.Orders ↔
        (o ∈ book.Orders ∧ o.OrderID ∉ e.streamOnCancel ∧ o.OrderID ∉ e.streamOnWait
          ∧ o.OrderID ∉ e.streamOnQuery) ∧ ∃ x ∈ S, x.OrderID = o.OrderID)
    ∧ (e.streamOnCancel = [] → e.streamOnWait = [] → e.streamOnQuery = [] →
        (cancelLoopBody symbol book e).book.Orders
          = book.Orders.filter (fun o => S.any (fun x => x.OrderID == o.OrderID))) := by
  rw [cancelLoopBody_ok_query symbol book e hc hne, hq]
  refine ⟨rfl, evictClosed_orders _ _ _, ?_, ?_⟩
  · intro o
    simp only [evictClosed_orders, List.mem_filter, mem_streamRemove, List.any_eq_true,
      beq_iff_eq]
    tauto
  · intro h1 h2 h3
    simp only [evictClosed_orders, h1, h2, h3, streamRemove_nil]

/-- Witness for C3: a book of three orders, the stream removes nothing, the
snapshot reports orders 2 and 9; only order 2 stays and order 9 is not added. -/
theorem cancelLoopBody_evicts_orders_absent_from_snapshot_witness :
    (cancelLoopBody "BTCUSDT" ⟨[⟨1, "BTCUSDT"⟩, ⟨2, "BTCUSDT"⟩, ⟨3, "BTCUSDT"⟩]⟩
        ⟨none, [], SelectCase.timeAfter, [], .ok [⟨2, "BTCUSDT"⟩, ⟨9, "BTCUSDT"⟩], []⟩).book.Orders
      = [⟨2, "BTCUSDT"⟩] :=
  ((cancelLoopBody_evicts_orders_absent_from_snapshot "BTCUSDT"
      ⟨[⟨1, "BTCUSDT"⟩, ⟨2, "BTCUSDT"⟩, ⟨3, "BTCUSDT"⟩]⟩
      ⟨none, [], SelectCase.timeAfter, [], .ok [⟨2, "BTCUSDT"⟩, ⟨9, "BTCUSDT"⟩], []⟩
      [⟨2, "BTCUSDT"⟩, ⟨9, "BTCUSDT"⟩] rfl (by decide) rfl).2.2.2 rfl rfl rfl).trans (by decide)

/-- C4: when every `CancelOrders` call succeeds and every `QueryOpenOrders` call
succeeds with an empty snapshot, `cancelOrders` returns with an empty book
after at most one iteration of the loop, with at most two `CancelOrders` calls
and at most one `QueryOpenOrders` call, whatever the stream removes in the
meantime and whichever case the `select` takes. -/
theorem cancelOrders_converges_on_empty_snapshot (symbol : String) (book : LocalActiveOrderBook)
    (e0 : InitEnv) (es : List IterEnv) (hes : es ≠ [])
    (h : ∀ e ∈ es, e.cancelErr = none ∧ e.queryResult = .ok []) :
    (cancelOrders symbol book e0 es).returned = true
    ∧ (cancelOrders symbol book e0 es).book.NumOfOrders = 0
    ∧ (cancelOrders symbol book e0 es).iterations ≤ 1
    ∧ (cancelOrders symbol book e0 es).calls.countP Call.isCancelOrders ≤ 2
    ∧ (cancelOrders symbol book e0 es).calls.countP Call.isQueryOpenOrders ≤ 1 := by
  cases es with
  | nil => exact absurd rfl hes
  | cons e es =>
    obtain ⟨hc, hq⟩ := h e (List.mem_cons_self _ _)
    simp only [cancelOrders]
    by_cases hb : (book.streamRemove e0.streamRemoved).NumOfOrders > 0
    · rw [cancelLoop_cons_of_pos _ _ _ _ hb]
      by_cases hw : (((book.streamRemove e0.streamRemoved).streamRemove
          e.streamOnCancel).streamRemove e.streamOnWait).NumOfOrders > 0
      · rw [cancelLoopBody_ok_query _ _ _ hc hw, hq]
        simp only []
        rw [cancelLoop_of_empty _ _ _ (evictClosed_nil_NumOfOrders _ _)]
        simp [evictClosed_nil_NumOfOrders, Call.isCancelOrders, Call.isQueryOpenOrders,
          List.countP_cons]
      · have hw0 : (((book.streamRemove e0.streamRemoved).streamRemove
            e.streamOnCancel).streamRemove e.streamOnWait).NumOfOrders = 0 := by omega
        rw [cancelLoopBody_ok_empty _ _ _ hc hw0]
        simp only []
        rw [cancelLoop_of_empty _ _ _ hw0]
        simp [hw0, Call.isCancelOrders, Call.isQueryOpenOrders, List.countP_cons]
    · have hb0 : (book.streamRemove e0.streamRemoved).NumOfOrders = 0 := by omega
      rw [cancelLoop_of_empty _ _ _ hb0]
      simp [hb0, Call.isCancelOrders, Call.isQueryOpenOrders, List.countP_cons]

/-- Witness for C4: three open orders, no stream update at all, one script
entry with a successful cancel and an empty snapshot. -/
theorem cancelOrders_converges_on_empty_snapshot_witness :
    (cancelOrders "BTCUSDT" ⟨[⟨1, "BTCUSDT"⟩, ⟨2, "BTCUSDT"⟩, ⟨3, "BTCUSDT"⟩]⟩ ⟨none, []⟩
        [⟨none, [], SelectCase.timeAfter, [], .ok [], []⟩]).returned = true
    ∧ (cancelOrders "BTCUSDT" ⟨[⟨1, "BTCUSDT"⟩, ⟨2, "BTCUSDT"⟩, ⟨3, "BTCUSDT"⟩]⟩ ⟨none, []⟩
        [⟨none, [], SelectCase.timeAfter, [], .ok [], []⟩]).iterations = 1 :=
  ⟨(cancelOrders_converges_on_empty_snapshot "BTCUSDT"
      ⟨[⟨1, "BTCUSDT"⟩, ⟨2, "BTCUSDT"⟩, ⟨3, "BTCUSDT"⟩]⟩ ⟨none, []⟩
      [⟨none, [], SelectCase.timeAfter, [], .ok [], []⟩] (by simp)
      (by intro e he; simp only [List.mem_singleton] at he; subst he; exact ⟨rfl, rfl⟩)).1,
    by decide⟩

/-- C5: a failed exchange call inside the loop changes no book membership and is
retried. When the in-loop `CancelOrders` fails the iteration makes no
`QueryOpenOrders` call and leaves the book as the stream left it; when the
cancel or the query fails, every order the stream did not remove is still in
the book; and while the book is non-empty the loop has not returned and the
next iteration starts with a new `CancelOrders` call on the remaining orders. -/
theorem cancelLoopBody_failed_call_is_retried (symbol : String) (book : LocalActiveOrderBook)
    (e : IterEnv)
    (hfail : (∃ err, e.cancelErr = some err)
      ∨ (e.cancelErr = none ∧ ∃ err, e.queryResult = .error err)) :
    ((∃ err, e.cancelErr = some err) →
        (cancelLoopBody symbol book e).calls = [Call.CancelOrders book.Orders]
        ∧ (cancelLoopBody symbol book e).book = book.streamRemove e.streamOnCancel)
    ∧ (∀ o ∈ book.Orders, o.OrderID ∉ e.streamOnCancel → o.OrderID ∉ e.streamOnWait →
        o.OrderID ∉ e.streamOnQuery → o ∈ (cancelLoopBody symbol book e).book.Orders)
    ∧ (e.streamOnCancel = [] → e.streamOnWait = [] → e.streamOnQuery = [] →
        (cancelLoopBody symbol book e).book = book)
    ∧ (book.NumOfOrders > 0 → (cancelLoopBody symbol book e).book.NumOfOrders > 0 →
        (cancelLoop symbol book [e]).returned = false
        ∧ ∀ (e2 : IterEnv) (es : List IterEnv),
            2 ≤ (cancelLoop symbol book (e :: e2 :: es)).iterations
            ∧ ∃ rest, (cancelLoop symbol book (e :: e2 :: es)).calls
                = (cancelLoopBody symbol book e).calls
                  ++ Call.CancelOrders (cancelLoopBody symbol book e).book.Orders :: rest) := by
  have hbook : (cancelLoopBody symbol book e).book = book.streamRemove e.streamOnCancel
      ∨ (cancelLoopBody symbol book e).book
          = (book.streamRemove e.streamOnCancel).streamRemove e.streamOnWait
      ∨ (cancelLoopBody symbol book e).book
          = ((book.streamRemove e.streamOnCancel).streamRemove e.streamOnWait).streamRemove
              e.streamOnQuery := by
    rcases hfail with ⟨err, hc⟩ | ⟨hc, err, hq⟩
    · exact Or.inl (by rw [cancelLoopBody_cancel_failed _ _ _ err hc])
    · by_cases hw : ((book.streamRemove e.streamOnCancel).streamRemove
          e.streamOnWait).NumOfOrders > 0
      · exact Or.inr (Or.inr (by rw [cancelLoopBody_ok_query _ _ _ hc hw, hq]))
      · exact Or.inr (Or.inl (by rw [cancelLoopBody_ok_empty _ _ _ hc (by omega)]))
  refine ⟨?_, ?_, ?_, ?_⟩
  · rintro ⟨err, hc⟩
    rw [cancelLoopBody_cancel_failed _ _ _ err hc]
    exact ⟨rfl, rfl⟩
  · intro o ho h1 h2 h3
    rcases hbook with hb | hb | hb <;> rw [hb] <;> simp only [mem_streamRemove] <;> tauto
  · intro h1 h2 h3
    rcases hbook with hb | hb | hb <;> rw [hb] <;> simp only [h1, h2, h3, streamRemove_nil]
  · intro hpos hpos2
    refine ⟨?_, ?_⟩
    · rw [cancelLoop_cons_of_pos _ _ _ _ hpos]
      simp [cancelLoop, hpos2]
    · intro e2 es
      obtain ⟨rest, hrest⟩ := cancelLoopBody_calls_head symbol (cancelLoopBody symbol book e).book e2
      rw [cancelLoop_cons_of_pos _ _ _ _ hpos, cancelLoop_cons_of_pos _ _ _ _ hpos2]
      refine ⟨by simp, ?_⟩
      simp only [hrest]
      exact ⟨rest ++ (cancelLoop symbol
        (cancelLoopBody symbol (cancelLoopBody symbol book e).book e2).book es).calls, by simp⟩

/-- Witness for C5: the in-loop `CancelOrders` fails on a book of one order. -/
theorem cancelLoopBody_failed_call_is_retried_witness :
    (cancelLoopBody "BTCUSDT" ⟨[⟨1, "BTCUSDT"⟩]⟩
        ⟨some (Error.errorf "timeout"), [], SelectCase.timeAfter, [], .ok [], []⟩).book
      = ⟨[⟨1, "BTCUSDT"⟩]⟩ :=
  (cancelLoopBody_failed_call_is_retried "BTCUSDT" ⟨[⟨1, "BTCUSDT"⟩]⟩
      ⟨some (Error.errorf "timeout"), [], SelectCase.timeAfter, [], .ok [], []⟩
      (Or.inl ⟨_, rfl⟩)).2.2.1 rfl rfl rfl

/-! ## Claims about the persisted state and `Run` -/

theorem LoadState_of_load_ok (s : Strategy) (now : Int) (st : State)
    (h : s.Persistence.Load [ID, s.Symbol, stateKey] = .ok st) :
    s.LoadState now
      = ({ s with state := some (State.mk
              (some (st.Position.getD (NewPositionFromMarket s.market)))
              st.AccumulatedVolume st.AccumulatedPnL st.AccumulatedProfit st.AccumulatedLoss
              (if st.AccumulatedSince = 0 then now else st.AccumulatedSince)) },
          none) := by
  unfold Strategy.LoadState
  simp only [h]
  obtain ⟨pos, v, pnl, profit, loss, since⟩ := st
  cases pos <;> by_cases hs : since = 0 <;> simp [hs]

theorem LoadState_of_not_exists (s : Strategy) (now : Int)
    (h : s.Persistence.Load [ID, s.Symbol, stateKey] = .error Error.ErrPersistenceNotExists) :
    s.LoadState now
      = ({ s with state := some (State.mk (some (NewPositionFromMarket s.market)) 0 0 0 0 now) },
          none) := by
  unfold Strategy.LoadState
  simp [h, State.zero]

theorem LoadState_of_load_error (s : Strategy) (now : Int) (err : Error)
    (h : s.Persistence.Load [ID, s.Symbol, stateKey] = .error err)
    (hne : err ≠ Error.ErrPersistenceNotExists) :
    s.LoadState now = (s, some err) := by
  unfold Strategy.LoadState
  simp [h, hne]

theorem LoadState_error_iff (s : Strategy) (now : Int) (err : Error) :
    (s.LoadState now).2 = some err ↔
      (s.Persistence.Load [ID, s.Symbol, stateKey] = .error err
        ∧ err ≠ Error.ErrPersistenceNotExists) := by
  cases hl : s.Persistence.Load [ID, s.Symbol, stateKey] with
  | ok st => simp [LoadState_of_load_ok s now st hl]
  | error e =>
    by_cases hne : e = Error.ErrPersistenceNotExists
    · subst hne
      rw [LoadState_of_not_exists s now hl]
      simp only [false_iff, not_and, not_not, reduceCtorEq]
      intro h
      injection h with h
      exact h.symm
    · rw [LoadState_of_load_error s now e hl hne]
      constructor
      · intro h
        have : e = err := by simpa using h
        subst this
        exact ⟨rfl, hne⟩
      · rintro ⟨h, -⟩
        injection h with h
        simp [h]

/-- C6: `LoadState` returns the error `err` exactly when `Persistence.Load`
fails with `err` and `err` is not `ErrPersistenceNotExists`, and then the
strategy is untouched. On `ErrPersistenceNotExists` it returns nil with a fresh
state: the four accumulators are zero, `AccumulatedSince` is the clock reading
and `Position` is the new position of the strategy's market. On every nil
return the state has a position; a restored non-nil `Position` and a restored
non-zero `AccumulatedSince` are kept, as are the restored accumulators. -/
theorem LoadState_error_handling (s : Strategy) (now : Int) :
    (∀ err, (s.LoadState now).2 = some err ↔
        (s.Persistence.Load [ID, s.Symbol, stateKey] = .error err
          ∧ err ≠ Error.ErrPersistenceNotExists))
    ∧ (∀ err, (s.LoadState now).2 = some err → (s.LoadState now).1 = s)
    ∧ (s.Persistence.Load [ID, s.Symbol, stateKey] = .error Error.ErrPersistenceNotExists →
        (s.LoadState now).2 = none
        ∧ (s.LoadState now).1.state = some
            ({ Position := some (NewPositionFromMarket s.market),
               AccumulatedVolume := 0, AccumulatedPnL := 0, AccumulatedProfit := 0,
               AccumulatedLoss := 0, AccumulatedSince := now } : State))
    ∧ ((s.LoadState now).2 = none →
        ∃ st, (s.LoadState now).1.state = some st ∧ st.Position.isSome = true)
    ∧ (∀ st0, s.Persistence.Load [ID, s.Symbol, stateKey] = .ok st0 →
        (s.LoadState now).2 = none
        ∧ ∃ st, (s.LoadState now).1.state = some st
          ∧ (∀ pos, st0.Position = some pos → st.Position = some pos)
          ∧ (st0.AccumulatedSince ≠ 0 → st.AccumulatedSince = st0.AccumulatedSince)
          ∧ st.AccumulatedVolume = st0.AccumulatedVolume
          ∧ st.AccumulatedPnL = st0.AccumulatedPnL
          ∧ st.AccumulatedProfit = st0.AccumulatedProfit
          ∧ st.AccumulatedLoss = st0.AccumulatedLoss) := by
  refine ⟨LoadState_error_iff s now, ?_, ?_, ?_, ?_⟩
  · intro err h
    obtain ⟨hl, hne⟩ := (LoadState_error_iff s now err).1 h
    rw [LoadState_of_load_error s now err hl hne]
  · intro h
    rw [LoadState_of_not_exists s now h]
    exact ⟨rfl, rfl⟩
  · intro h
    cases hl : s.Persistence.Load [ID, s.Symbol, stateKey] with
    | ok st0 =>
      rw [LoadState_of_load_ok s now st0 hl]
      exact ⟨_, rfl, rfl⟩
    | error e =>
      by_cases hne : e = Error.ErrPersistenceNotExists
      · subst hne
        rw [LoadState_of_not_exists s now hl]
        exact ⟨_, rfl, rfl⟩
      · rw [LoadState_of_load_error s now e hl hne] at h
        simp at h
  · intro st0 hl
    rw [LoadState_of_load_ok s now st0 hl]
    refine ⟨rfl, _, rfl, ?_, ?_, rfl, rfl, rfl, rfl⟩
    · intro pos hp
      simp [hp]
    · intro hs
      simp [hs]

theorem SaveState_ok_fault (s : Strategy) (h : (s.SaveState).2 = none) :
    s.Persistence.fault = none := by
  unfold Strategy.SaveState Persistence.Save at h
  cases hf : s.Persistence.fault with
  | none => rfl
  | some e => simp [hf] at h

theorem SaveState_ok_data (s : Strategy) (h : (s.SaveState).2 = none) :
    (s.SaveState).1.Persistence
      = { fault := none,
          data := fun k =>
            if k = [ID, s.Symbol, stateKey] then some (s.state.getD State.zero)
            else s.Persistence.data k } := by
  have hf := SaveState_ok_fault s h
  unfold Strategy.SaveState Persistence.Save
  simp only [hf]

theorem LoadState_congr (s s2 : Strategy) (now : Int)
    (hl : s.Persistence.Load [ID, s.Symbol, stateKey]
      = s2.Persistence.Load [ID, s2.Symbol, stateKey])
    (hm : s.market = s2.market) (hs : s.state = s2.state) :
    (s.LoadState now).2 = (s2.LoadState now).2
    ∧ (s.LoadState now).1.state = (s2.LoadState now).1.state := by
  cases hl2 : s2.Persistence.Load [ID, s2.Symbol, stateKey] with
  | ok st =>
    rw [LoadState_of_load_ok s now st (hl.trans hl2), LoadState_of_load_ok s2 now st hl2, hm]
    exact ⟨rfl, rfl⟩
  | error e =>
    by_cases hne : e = Error.ErrPersistenceNotExists
    · subst hne
      rw [LoadState_of_not_exists s now (hl.trans hl2), LoadState_of_not_exists s2 now hl2, hm]
      exact ⟨rfl, rfl⟩
    · rw [LoadState_of_load_error s now e (hl.trans hl2) hne,
        LoadState_of_load_error s2 now e hl2 hne]
      exact ⟨rfl, hs⟩

/-- C7: `SaveState` and `LoadState` use the same key `("bpp", Symbol,
"state-v1")`. After a successful `SaveState` of a state with a non-nil
`Position` and a non-zero `AccumulatedSince`, the store holds that state under
the key, `LoadState` on a strategy with the same `Symbol` over that store
returns nil and restores exactly the saved state, and `LoadState` on a strategy
with another `Symbol` gives what it gave before the save. -/
theorem SaveState_LoadState_roundtrip (s : Strategy) (st : State) (pos : Position)
    (hst : s.state = some st) (hpos : st.Position = some pos)
    (hsince : st.AccumulatedSince ≠ 0) (hsave : (s.SaveState).2 = none) :
    (s.SaveState).1.Persistence.data ["bpp", s.Symbol, "state-v1"] = some st
    ∧ (∀ (s2 : Strategy) (now : Int), s2.Symbol = s.Symbol →
        s2.Persistence = (s.SaveState).1.Persistence →
        s2.LoadState now = ({ s2 with state := some st }, none))
    ∧ (∀ (s2 : Strategy) (now : Int), s2.Symbol ≠ s.Symbol →
        s2.Persistence = (s.SaveState).1.Persistence →
        (s2.LoadState now).2 = (Strategy.LoadState { s2 with Persistence := s.Persistence } now).2
        ∧ (s2.LoadState now).1.state
            = (Strategy.LoadState { s2 with Persistence := s.Persistence } now).1.state) := by
  have hdata := SaveState_ok_data s hsave
  have hf := SaveState_ok_fault s hsave
  refine ⟨?_, ?_, ?_⟩
  · rw [hdata]
    simp [ID, stateKey, hst]
  · intro s2 now hsym hp
    have hl : s2.Persistence.Load [ID, s2.Symbol, stateKey] = .ok st := by
      rw [hp, hdata]
      simp [Persistence.Load, hsym, hst]
    rw [LoadState_of_load_ok s2 now st hl]
    obtain ⟨p, v, pnl, profit, loss, since⟩ := st
    simp only at hpos hsince
    subst hpos
    simp [hsince]
  · intro s2 now hsym hp
    refine LoadState_congr s2 { s2 with Persistence := s.Persistence } now ?_ rfl rfl
    rw [hp, hdata]
    simp [Persistence.Load, hsym, hf]

/-- Witness for C7: a state is saved under "BTCUSDT" into an empty store and
loaded back by a strategy with the same symbol. -/
theorem SaveState_LoadState_roundtrip_witness :
    (Strategy.LoadState (Strategy.SaveState exampleStrategy).1 99).1.state
      = some exampleState :=
  congrArg (fun r => r.1.state)
    ((SaveState_LoadState_roundtrip exampleStrategy exampleState
      ⟨"BTCUSDT", "BTC", "USDT", 5, -7, 2⟩ rfl rfl (by decide) rfl).2.1
      (Strategy.SaveState exampleStrategy).1 99 rfl rfl)

theorem Run_of_no_market (s : Strategy) (session : ExchangeSession)
    (GenerateGroupID : String → Nat) (now : Int) (h : session.markets s.Symbol = none) :
    s.Run session GenerateGroupID now
      = ⟨s, session, some (Error.errorf ("market " ++ s.Symbol ++ " not found"))⟩ := by
  unfold Strategy.Run
  simp only [h]

theorem Run_of_market (s : Strategy) (session : ExchangeSession)
    (GenerateGroupID : String → Nat) (now : Int) (market : Market)
    (h : session.markets s.Symbol = some market) :
    ((s.Run session GenerateGroupID now).err
        = (Strategy.LoadState
            { s with market := market, groupID := GenerateGroupID (ID ++ "-" ++ s.Symbol) } now).2)
    ∧ ((s.Run session GenerateGroupID now).err ≠ none →
        (s.Run session GenerateGroupID now).session.registered = session.registered)
    ∧ ((s.Run session GenerateGroupID now).err = none →
        (s.Run session GenerateGroupID now).session.registered
          = session.registered ++ runHandlers) := by
  unfold Strategy.Run
  simp only [h]
  cases hl : Strategy.LoadState
      { s with market := market, groupID := GenerateGroupID (ID ++ "-" ++ s.Symbol) } now with
  | mk s2 err =>
    cases err with
    | none => simp
    | some e => simp

/-- C8: `Run` returns an error exactly when the session has no market for
`s.Symbol` or `LoadState` returns one, which is when `Persistence.Load` fails
with an error other than `ErrPersistenceNotExists`; on a first run with nothing
persisted it returns nil. When `Run` returns an error the registered handlers
of the session are those it had before; when it returns nil the handlers of
lines 248-302 have been appended. -/
theorem Run_error_handling (s : Strategy) (session : ExchangeSession)
    (GenerateGroupID : String → Nat) (now : Int) :
    ((s.Run session GenerateGroupID now).err ≠ none ↔
        (session.markets s.Symbol = none
          ∨ ∃ market, session.markets s.Symbol = some market
              ∧ (Strategy.LoadState
                  { s with market := market,
                           groupID := GenerateGroupID (ID ++ "-" ++ s.Symbol) } now).2 ≠ none))
    ∧ ((s.Run session GenerateGroupID now).err ≠ none ↔
        (session.markets s.Symbol = none
          ∨ ∃ err, s.Persistence.Load [ID, s.Symbol, stateKey] = .error err
              ∧ err ≠ Error.ErrPersistenceNotExists))
    ∧ (session.markets s.Symbol ≠ none →
        s.Persistence.Load [ID, s.Symbol, stateKey] = .error Error.ErrPersistenceNotExists →
        (s.Run session GenerateGroupID now).err = none)
    ∧ ((s.Run session GenerateGroupID now).err ≠ none →
        (s.Run session GenerateGroupID now).session.registered = session.registered)
    ∧ ((s.Run session GenerateGroupID now).err = none →
        (s.Run session GenerateGroupID now).session.registered
          = session.registered ++ runHandlers) := by
  cases hm : session.markets s.Symbol with
  | none =>
    rw [Run_of_no_market s session GenerateGroupID now hm]
    simp
  | some market =>
    obtain ⟨herr, hreg, hreg2⟩ := Run_of_market s session GenerateGroupID now market hm
    have hload : ∀ err, (Strategy.LoadState
          { s with market := market, groupID := GenerateGroupID (ID ++ "-" ++ s.Symbol) } now).2
          = some err ↔ (s.Persistence.Load [ID, s.Symbol, stateKey] = .error err
            ∧ err ≠ Error.ErrPersistenceNotExists) := fun err =>
      LoadState_error_iff
        { s with market := market, groupID := GenerateGroupID (ID ++ "-" ++ s.Symbol) } now err
    refine ⟨?_, ?_, ?_, hreg, hreg2⟩
    · rw [herr]
      simp
    · rw [herr]
      simp only [ne_eq, reduceCtorEq, false_or, Option.ne_none_iff_exists]
      constructor
      · rintro ⟨err, h⟩
        exact ⟨err, (hload err).1 h.symm⟩
      · rintro ⟨err, h⟩
        exact ⟨err, ((hload err).2 h).symm⟩
    · intro _ hl
      rw [herr]
      cases h : (Strategy.LoadState
          { s with market := market, groupID := GenerateGroupID (ID ++ "-" ++ s.Symbol) } now).2 with
      | none => rfl
      | some err =>
        have := ((hload err).1 h).1
        rw [hl] at this
        injection this with h2
        exact absurd h2.symm ((hload err).1 h).2

/-! ## Claims about the trade conversion -/

theorem len_pos_iff (str : String) : 0 < len str ↔ str ≠ "" := by
  obtain ⟨cs⟩ := str
  cases cs with
  | nil => simp [len, String.utf8ByteSize, String.utf8ByteSize.go]
  | cons c cs =>
    have hc := Char.utf8Size_pos c
    simp only [len, String.utf8ByteSize, String.utf8ByteSize.go]
    constructor
    · intro _ h
      have hd := congrArg String.data h
      simp at hd
    · intro _
      omega

theorem toGlobalTrade_of_parse (fp : Fixedpoint) (t : TradeV3) (isMargin : Bool)
    (h : numericStringsParse fp t.Price t.Quantity t.QuoteQuantity t.Commission = true) :
    toGlobalTrade fp t isMargin
      = (some
          { ID := uint64 t.ID, OrderID := uint64 t.OrderID, Price := fp.parsed t.Price,
            Symbol := t.Symbol, Exchange := "binance", Quantity := fp.parsed t.Quantity,
            QuoteQuantity :=
              if t.QuoteQuantity = "" then fp.Mul (fp.parsed t.Price) (fp.parsed t.Quantity)
              else fp.parsed t.QuoteQuantity,
            Side := if t.IsBuyer then SideType.SideTypeBuy else SideType.SideTypeSell,
            IsBuyer := t.IsBuyer, IsMaker := t.IsMaker, Fee := fp.parsed t.Commission,
            FeeCurrency := t.CommissionAsset, Time := millisecondTime t.Time,
            IsMargin := isMargin, IsFutures := false, IsIsolated := t.IsIsolated },
          none) := by
  simp only [numericStringsParse, Bool.and_eq_true, Bool.or_eq_true, beq_iff_eq] at h
  obtain ⟨⟨⟨hp, hq⟩, hqq⟩, hc⟩ := h
  unfold toGlobalTrade
  unfold Fixedpoint.parses at hp hq hc hqq
  unfold Fixedpoint.parsed
  cases h1 : fp.NewFromString t.Price with
  | error e => simp [h1] at hp
  | ok price =>
    cases h2 : fp.NewFromString t.Quantity with
    | error e => simp [h2] at hq
    | ok quantity =>
      cases h3 : fp.NewFromString t.Commission with
      | error e => simp [h3] at hc
      | ok fee =>
        by_cases hempty : t.QuoteQuantity = ""
        · have hlen : ¬ (0 < len t.QuoteQuantity) := fun hl => (len_pos_iff _).1 hl hempty
          simp only [gt_iff_lt, hlen, if_false]
          simp [hempty]
        · have hlen : 0 < len t.QuoteQuantity := (len_pos_iff _).2 hempty
          cases h4 : fp.NewFromString t.QuoteQuantity with
          | error e => simp [h4, hempty] at hqq
          | ok qq =>
            simp only [gt_iff_lt, hlen, if_true]
            simp [hempty]

theorem toGlobalTrade_of_not_parse (fp : Fixedpoint) (t : TradeV3) (isMargin : Bool)
    (h : numericStringsParse fp t.Price t.Quantity t.QuoteQuantity t.Commission = false) :
    ∃ err, toGlobalTrade fp t isMargin = (none, some err) := by
  unfold toGlobalTrade
  unfold numericStringsParse Fixedpoint.parses at h
  cases h1 : fp.NewFromString t.Price with
  | error e => exact ⟨_, rfl⟩
  | ok price =>
    cases h2 : fp.NewFromString t.Quantity with
    | error e => exact ⟨_, rfl⟩
    | ok quantity =>
      by_cases hempty : t.QuoteQuantity = ""
      · have hlen : ¬ (0 < len t.QuoteQuantity) := fun hl => (len_pos_iff _).1 hl hempty
        cases h3 : fp.NewFromString t.Commission with
        | error e => simp only [gt_iff_lt, hlen, if_false]; exact ⟨_, rfl⟩
        | ok fee => simp [h1, h2, h3, hempty] at h
      · have hlen : 0 < len t.QuoteQuantity := (len_pos_iff _).2 hempty
        cases h4 : fp.NewFromString t.QuoteQuantity with
        | error e => simp only [gt_iff_lt, hlen, if_true]; exact ⟨_, rfl⟩
        | ok qq =>
          cases h3 : fp.NewFromString t.Commission with
          | error e => simp only [gt_iff_lt, hlen, if_true]; exact ⟨_, rfl⟩
          | ok fee => simp [h1, h2, h3, h4, hempty] at h

theorem toGlobalFuturesTrade_of_parse (fp : Fixedpoint) (t : AccountTrade)
    (h : numericStringsParse fp t.Price t.Quantity t.QuoteQuantity t.Commission = true) :
    toGlobalFuturesTrade fp t
      = (some
          { ID := uint64 t.ID, OrderID := uint64 t.OrderID, Price := fp.parsed t.Price,
            Symbol := t.Symbol, Exchange := "binance", Quantity := fp.parsed t.Quantity,
            QuoteQuantity :=
              if t.QuoteQuantity = "" then fp.Mul (fp.parsed t.Price) (fp.parsed t.Quantity)
              else fp.parsed t.QuoteQuantity,
            Side := if t.Buyer then SideType.SideTypeBuy else SideType.SideTypeSell,
            IsBuyer := t.Buyer, IsMaker := t.Maker, Fee := fp.parsed t.Commission,
            FeeCurrency := t.CommissionAsset, Time := millisecondTime t.Time,
            IsMargin := false, IsFutures := true, IsIsolated := false },
          none) := by
  simp only [numericStringsParse, Bool.and_eq_true, Bool.or_eq_true, beq_iff_eq] at h
  obtain ⟨⟨⟨hp, hq⟩, hqq⟩, hc⟩ := h
  unfold toGlobalFuturesTrade
  unfold Fixedpoint.parses at hp hq hc hqq
  unfold Fixedpoint.parsed
  cases h1 : fp.NewFromString t.Price with
  | error e => simp [h1] at hp
  | ok price =>
    cases h2 : fp.NewFromString t.Quantity with
    | error e => simp [h2] at hq
    | ok quantity =>
      cases h3 : fp.NewFromString t.Commission with
      | error e => simp [h3] at hc
      | ok fee =>
        by_cases hempty : t.QuoteQuantity = ""
        · have hlen : ¬ (0 < len t.QuoteQuantity) := fun hl => (len_pos_iff _).1 hl hempty
          simp only [gt_iff_lt, hlen, if_false]
          simp [hempty]
        · have hlen : 0 < len t.QuoteQuantity := (len_pos_iff _).2 hempty
          cases h4 : fp.NewFromString t.QuoteQuantity with
          | error e => simp [h4, hempty] at hqq
          | ok qq =>
            simp only [gt_iff_lt, hlen, if_true]
            simp [hempty]

/-- C9: for a Binance trade whose numeric strings parse, `toGlobalTrade` and
`toGlobalFuturesTrade` return a trade and a nil error, and the trade's
`QuoteQuantity` is the parsed `QuoteQuantity` string when that string is
non-empty and `Price.Mul(Quantity)` of the parsed price and quantity when it is
empty. -/
theorem toGlobalTrade_QuoteQuantity (fp : Fixedpoint) (t : TradeV3) (isMargin : Bool)
    (ft : AccountTrade)
    (ht : numericStringsParse fp t.Price t.Quantity t.QuoteQuantity t.Commission = true)
    (hft : numericStringsParse fp ft.Price ft.Quantity ft.QuoteQuantity ft.Commission = true) :
    (∃ tr, toGlobalTrade fp t isMargin = (some tr, none)
      ∧ (t.QuoteQuantity ≠ "" → tr.QuoteQuantity = fp.parsed t.QuoteQuantity)
      ∧ (t.QuoteQuantity = "" →
          tr.QuoteQuantity = fp.Mul (fp.parsed t.Price) (fp.parsed t.Quantity)))
    ∧ (∃ tr, toGlobalFuturesTrade fp ft = (some tr, none)
      ∧ (ft.QuoteQuantity ≠ "" → tr.QuoteQuantity = fp.parsed ft.QuoteQuantity)
      ∧ (ft.QuoteQuantity = "" →
          tr.QuoteQuantity = fp.Mul (fp.parsed ft.Price) (fp.parsed ft.Quantity))) := by
  rw [toGlobalTrade_of_parse fp t isMargin ht, toGlobalFuturesTrade_of_parse fp ft hft]
  refine ⟨⟨_, rfl, ?_, ?_⟩, ⟨_, rfl, ?_, ?_⟩⟩ <;> intro h <;> simp [h]

/-- Witness for C9: a spot trade that reports no quote quantity (price 2,
quantity 3, so quote quantity 6) and a futures trade that reports it as "1". -/
theorem toGlobalTrade_QuoteQuantity_witness :
    (∃ tr, toGlobalTrade exampleFixedpoint
        ⟨7, "BTCUSDT", 11, "2", "3", "", "1", "BNB", 1600000000000, true, false, false⟩ false
          = (some tr, none) ∧ tr.QuoteQuantity = 6)
    ∧ (∃ tr, toGlobalFuturesTrade exampleFixedpoint
        ⟨false, "1", "USDT", 8, true, 12, "2", "3", "1", "BTCUSDT", 1600000000000⟩
          = (some tr, none) ∧ tr.QuoteQuantity = 1) :=
  have h := toGlobalTrade_QuoteQuantity exampleFixedpoint
    ⟨7, "BTCUSDT", 11, "2", "3", "", "1", "BNB", 1600000000000, true, false, false⟩ false
    ⟨false, "1", "USDT", 8, true, 12, "2", "3", "1", "BTCUSDT", 1600000000000⟩
    (by decide) (by decide)
  ⟨h.1.imp (fun _ hx => ⟨hx.1, (hx.2.2 rfl).trans (by decide)⟩),
   h.2.imp (fun _ hx => ⟨hx.1, (hx.2.1 (by decide)).trans (by decide)⟩)⟩

/-- C10: `toGlobalTrade` returns an error, and then a nil trade, exactly when
one of the Price, Quantity, non-empty QuoteQuantity or Commission strings fails
to parse. Otherwise it returns a nil error and a trade whose ID, OrderID,
Symbol, Price, Quantity, Fee, FeeCurrency and maker flag are the input's fields
(the identifiers through the conversion `uint64`, the numbers parsed) and
whose Side is buy exactly when `IsBuyer` is true and sell otherwise. An empty
QuoteQuantity string is not a parse failure, even for a parser that rejects
the empty string. -/
theorem toGlobalTrade_error_handling (fp : Fixedpoint) (t : TradeV3) (isMargin : Bool) :
    ((toGlobalTrade fp t isMargin).2 ≠ none ↔
        (fp.parses t.Price = false ∨ fp.parses t.Quantity = false
          ∨ (t.QuoteQuantity ≠ "" ∧ fp.parses t.QuoteQuantity = false)
          ∨ fp.parses t.Commission = false))
    ∧ ((toGlobalTrade fp t isMargin).2 ≠ none → (toGlobalTrade fp t isMargin).1 = none)
    ∧ ((toGlobalTrade fp t isMargin).2 = none →
        ∃ tr, (toGlobalTrade fp t isMargin).1 = some tr
          ∧ tr.ID = uint64 t.ID ∧ tr.OrderID = uint64 t.OrderID
          ∧ (0 ≤ t.ID → t.ID < 2 ^ 64 → (tr.ID : Int) = t.ID)
          ∧ (0 ≤ t.OrderID → t.OrderID < 2 ^ 64 → (tr.OrderID : Int) = t.OrderID)
          ∧ tr.Symbol = t.Symbol
          ∧ tr.Price = fp.parsed t.Price ∧ tr.Quantity = fp.parsed t.Quantity
          ∧ tr.Fee = fp.parsed t.Commission ∧ tr.FeeCurrency = t.CommissionAsset
          ∧ tr.IsMaker = t.IsMaker
          ∧ (tr.Side = SideType.SideTypeBuy ↔ t.IsBuyer = true)
          ∧ (tr.Side = SideType.SideTypeSell ↔ t.IsBuyer = false))
    ∧ (t.QuoteQuantity = "" → fp.parses t.Price = true → fp.parses t.Quantity = true →
        fp.parses t.Commission = true → (toGlobalTrade fp t isMargin).2 = none) := by
  have hconv : ∀ x : Int, 0 ≤ x → x < 2 ^ 64 → ((uint64 x : Nat) : Int) = x := by
    intro x h0 h1
    unfold uint64
    rw [Int.emod_eq_of_lt h0 h1]
    exact Int.toNat_of_nonneg h0
  cases hp : numericStringsParse fp t.Price t.Quantity t.QuoteQuantity t.Commission with
  | true =>
    rw [toGlobalTrade_of_parse fp t isMargin hp]
    simp only [numericStringsParse, Bool.and_eq_true, Bool.or_eq_true, beq_iff_eq] at hp
    obtain ⟨⟨⟨h1, h2⟩, h3⟩, h4⟩ := hp
    refine ⟨?_, ?_, ?_, ?_⟩
    · simp only [ne_eq, not_true_eq_false, false_iff, not_or, not_and, Bool.not_eq_false]
      refine ⟨h1, h2, ?_, h4⟩
      intro hne
      rcases h3 with h3 | h3
      · exact absurd h3 hne
      · exact h3
    · intro h
      exact absurd rfl h
    · intro _
      refine ⟨_, rfl, rfl, rfl, hconv _, hconv _, rfl, rfl, rfl, rfl, rfl, rfl, ?_, ?_⟩
      · cases t.IsBuyer <;> simp
      · cases t.IsBuyer <;> simp
    · intro _ _ _ _
      rfl
  | false =>
    obtain ⟨err, herr⟩ := toGlobalTrade_of_not_parse fp t isMargin hp
    rw [herr]
    simp only [numericStringsParse, Bool.and_eq_false_iff, Bool.or_eq_false_iff,
      beq_eq_false_iff_ne] at hp
    refine ⟨?_, ?_, ?_, ?_⟩
    · simp only [ne_eq, reduceCtorEq, not_false_eq_true, true_iff]
      rcases hp with ((h | h) | h) | h
      · exact Or.inl h
      · exact Or.inr (Or.inl h)
      · exact Or.inr (Or.inr (Or.inl h))
      · exact Or.inr (Or.inr (Or.inr h))
    · intro _
      rfl
    · intro h
      simp at h
    · intro hq h1 h2 h4
      exfalso
      rcases hp with ((h | h) | h) | h
      · simp [h1] at h
      · simp [h2] at h
      · exact h.1 hq
      · simp [h4] at h

/-! ## Claims about order types and stream names -/

/-- C13: `toLocalOrderType` returns a nil error exactly for LimitMaker, Limit,
StopLimit, StopMarket and Market, which it maps to the Binance types
LIMIT_MAKER, LIMIT, STOP_LOSS_LIMIT, STOP_LOSS and MARKET; for every other
order type it returns the empty type and a "not supported" error.
`toLocalFuturesOrderType` returns a nil error exactly for Limit and LimitMaker
(both mapped to the futures LIMIT) and Market, and an error for every other
type, the stop variants included. -/
theorem toLocalOrderType_error_handling (t : Types.OrderType) :
    ((toLocalOrderType t).2 = none ↔
        (t = Types.OrderTypeLimitMaker ∨ t = Types.OrderTypeLimit ∨ t = Types.OrderTypeStopLimit
          ∨ t = Types.OrderTypeStopMarket ∨ t = Types.OrderTypeMarket))
    ∧ toLocalOrderType Types.OrderTypeLimitMaker = ("LIMIT_MAKER", none)
    ∧ toLocalOrderType Types.OrderTypeLimit = ("LIMIT", none)
    ∧ toLocalOrderType Types.OrderTypeStopLimit = ("STOP_LOSS_LIMIT", none)
    ∧ toLocalOrderType Types.OrderTypeStopMarket = ("STOP_LOSS", none)
    ∧ toLocalOrderType Types.OrderTypeMarket = ("MARKET", none)
    ∧ ((toLocalOrderType t).2 ≠ none →
        toLocalOrderType t = ("", some (Error.errorf
          ("can not convert to local order, order type " ++ t ++ " not supported"))))
    ∧ ((toLocalFuturesOrderType t).2 = none ↔
        (t = Types.OrderTypeLimit ∨ t = Types.OrderTypeLimitMaker ∨ t = Types.OrderTypeMarket))
    ∧ toLocalFuturesOrderType Types.OrderTypeLimit = ("LIMIT", none)
    ∧ toLocalFuturesOrderType Types.OrderTypeLimitMaker = ("LIMIT", none)
    ∧ toLocalFuturesOrderType Types.OrderTypeMarket = ("MARKET", none)
    ∧ (toLocalFuturesOrderType Types.OrderTypeStopLimit).2 ≠ none
    ∧ (toLocalFuturesOrderType Types.OrderTypeStopMarket).2 ≠ none
    ∧ ((toLocalFuturesOrderType t).2 ≠ none →
        toLocalFuturesOrderType t = ("", some (Error.errorf
          ("can not convert to local order, order type " ++ t ++ " not supported")))) := by
  refine ⟨?_, by decide, by decide, by decide, by decide, by decide, ?_, ?_, by decide,
    by decide, by decide, by decide, by decide, ?_⟩
  · unfold toLocalOrderType
    split_ifs with h1 h2 h3 h4 h5 <;> simp [*]
  · unfold toLocalOrderType
    split_ifs with h1 h2 h3 h4 h5 <;> simp
  · unfold toLocalFuturesOrderType
    split_ifs with h1 h2
    · rcases h1 with h1 | h1 <;> simp [h1]
    · simp [h2]
    · simp only [not_or] at h1
      simp [h1.1, h1.2, h2]
  · unfold toLocalFuturesOrderType
    split_ifs with h1 h2 <;> simp

/-- Counterexample to C18: LimitMaker goes to the Binance LIMIT_MAKER type and
comes back as Limit. -/
theorem toGlobalOrderType_toLocalOrderType_LimitMaker :
    toLocalOrderType Types.OrderTypeLimitMaker = (Binance.OrderTypeLimitMaker, none)
    ∧ toGlobalOrderType (toLocalOrderType Types.OrderTypeLimitMaker).1 = Types.OrderTypeLimit
    ∧ toGlobalOrderType (toLocalOrderType Types.OrderTypeLimitMaker).1
        ≠ Types.OrderTypeLimitMaker := by
  decide

/-- C18, amended: converting an order type to Binance and back is the identity
on Limit, Market, StopLimit and StopMarket; LimitMaker, which
`toLocalOrderType` also accepts, comes back as Limit. -/
theorem toGlobalOrderType_toLocalOrderType (t : Types.OrderType)
    (ht : t = Types.OrderTypeLimit ∨ t = Types.OrderTypeMarket ∨ t = Types.OrderTypeStopLimit
      ∨ t = Types.OrderTypeStopMarket) :
    (toLocalOrderType t).2 = none
    ∧ toGlobalOrderType (toLocalOrderType t).1 = t
    ∧ toGlobalOrderType (toLocalOrderType Types.OrderTypeLimitMaker).1 = Types.OrderTypeLimit := by
  rcases ht with h | h | h | h <;> subst h <;> decide

/-- Witness for C18, amended: the stop-limit type survives the round trip. -/
theorem toGlobalOrderType_toLocalOrderType_witness :
    toGlobalOrderType (toLocalOrderType Types.OrderTypeStopLimit).1 = Types.OrderTypeStopLimit :=
  (toGlobalOrderType_toLocalOrderType Types.OrderTypeStopLimit (Or.inr (Or.inr (Or.inl rfl)))).2.1

theorem convertSubscription_book (ToLower : String → String)
    (optionsString : Types.SubscribeOptions → String) (s : Types.Subscription)
    (h : s.Channel = Types.BookChannel) :
    convertSubscription ToLower optionsString s
      = ToLower s.Symbol ++ ("@depth" ++ (levelSuffix s.Options.Depth
          ++ speedSuffix s.Options.Speed)) := by
  have hk : ¬ s.Channel = Types.KLineChannel := by rw [h]; decide
  unfold convertSubscription
  rw [if_neg hk, if_pos h]
  unfold levelSuffix speedSuffix
  split_ifs <;> simp only [String.append_assoc] <;> rfl

theorem append_ne_level10 (d sp : String)
    (hd : d = "" ∨ d = "5" ∨ d = "20") (hsp : sp = "" ∨ sp = "@100ms" ∨ sp = "@1000ms")
    (rest : String) : d ++ sp ≠ "10" ++ rest := by
  intro h
  have hdata := congrArg String.data h
  simp only [String.data_append] at hdata
  rcases hd with hd | hd | hd <;> rcases hsp with hsp | hsp | hsp <;> subst hd <;> subst hsp <;>
    simp at hdata

/-- C14: for every subscription the stream name is the lower-cased symbol, then
"@", then: for the kline channel "kline_" and the options string; for the book
channel "depth", the level suffix ("5", "20" or nothing, so never a level "10")
and the speed suffix ("@100ms", "@1000ms" or nothing); for the book-ticker
channel "bookTicker"; for any other channel the channel name. -/
theorem convertSubscription_stream_name (ToLower : String → String)
    (optionsString : Types.SubscribeOptions → String) (s : Types.Subscription) :
    (∃ rest, convertSubscription ToLower optionsString s = ToLower s.Symbol ++ ("@" ++ rest))
    ∧ (s.Channel = Types.KLineChannel →
        convertSubscription ToLower optionsString s
          = ToLower s.Symbol ++ ("@kline_" ++ optionsString s.Options))
    ∧ (s.Channel = Types.BookChannel →
        convertSubscription ToLower optionsString s
          = ToLower s.Symbol ++ ("@depth" ++ (levelSuffix s.Options.Depth
              ++ speedSuffix s.Options.Speed))
        ∧ (s.Options.Depth = Types.DepthLevel5 → levelSuffix s.Options.Depth = "5")
        ∧ (s.Options.Depth = Types.DepthLevelMedium → levelSuffix s.Options.Depth = "20")
        ∧ (s.Options.Depth ≠ Types.DepthLevel5 → s.Options.Depth ≠ Types.DepthLevelMedium →
            levelSuffix s.Options.Depth = "")
        ∧ (s.Options.Speed = Types.SpeedHigh → speedSuffix s.Options.Speed = "@100ms")
        ∧ (s.Options.Speed = Types.SpeedLow → speedSuffix s.Options.Speed = "@1000ms")
        ∧ (s.Options.Speed ≠ Types.SpeedHigh → s.Options.Speed ≠ Types.SpeedLow →
            speedSuffix s.Options.Speed = "")
        ∧ ∀ rest, convertSubscription ToLower optionsString s
            ≠ ToLower s.Symbol ++ ("@depth" ++ ("10" ++ rest)))
    ∧ (s.Channel = Types.BookTickerChannel →
        convertSubscription ToLower optionsString s = ToLower s.Symbol ++ "@bookTicker")
    ∧ (s.Channel ≠ Types.KLineChannel → s.Channel ≠ Types.BookChannel →
        s.Channel ≠ Types.BookTickerChannel →
        convertSubscription ToLower optionsString s = ToLower s.Symbol ++ ("@" ++ s.Channel)) := by
  have hkline : s.Channel = Types.KLineChannel →
      convertSubscription ToLower optionsString s
        = ToLower s.Symbol ++ ("@kline_" ++ optionsString s.Options) := by
    intro h
    unfold convertSubscription
    simp only [h, if_true, String.append_assoc]
    rfl
  have hticker : s.Channel = Types.BookTickerChannel →
      convertSubscription ToLower optionsString s = ToLower s.Symbol ++ "@bookTicker" := by
    intro h
    have hk : ¬ s.Channel = Types.KLineChannel := by rw [h]; decide
    have hb : ¬ s.Channel = Types.BookChannel := by rw [h]; decide
    unfold convertSubscription
    simp only [hk, hb, if_false]
    simp [h]
  have hother : s.Channel ≠ Types.KLineChannel → s.Channel ≠ Types.BookChannel →
      s.Channel ≠ Types.BookTickerChannel →
      convertSubscription ToLower optionsString s = ToLower s.Symbol ++ ("@" ++ s.Channel) := by
    intro hk hb ht
    unfold convertSubscription
    simp only [hk, hb, ht, if_false, String.append_assoc]
  refine ⟨?_, hkline, ?_, hticker, hother⟩
  · by_cases hk : s.Channel = Types.KLineChannel
    · exact ⟨_, (hkline hk).trans rfl⟩
    · by_cases hb : s.Channel = Types.BookChannel
      · exact ⟨_, (convertSubscription_book ToLower optionsString s hb).trans rfl⟩
      · by_cases ht : s.Channel = Types.BookTickerChannel
        · exact ⟨"bookTicker", (hticker ht).trans rfl⟩
        · exact ⟨_, hother hk hb ht⟩
  · intro hb
    refine ⟨convertSubscription_book ToLower optionsString s hb, ?_, ?_, ?_, ?_, ?_, ?_, ?_⟩
    · intro h
      simp [levelSuffix, h]
    · intro h
      rw [h]
      decide
    · intro h1 h2
      simp [levelSuffix, h1, h2]
    · intro h
      simp [speedSuffix, h]
    · intro h
      rw [h]
      decide
    · intro h1 h2
      simp [speedSuffix, h1, h2]
    · intro rest hne
      rw [convertSubscription_book ToLower optionsString s hb] at hne
      have h1 := congrArg String.data hne
      simp only [String.data_append, List.append_cancel_left_eq] at h1
      have h2 : levelSuffix s.Options.Depth ++ speedSuffix s.Options.Speed = "10" ++ rest := by
        apply String.ext
        simpa using h1
      refine append_ne_level10 _ _ ?_ ?_ rest h2
      · unfold levelSuffix
        split_ifs <;> simp
      · unfold speedSuffix
        split_ifs <;> simp

/-! ## Claims about the order conversion -/

theorem toGlobalOrder_returned_or_panicked (MustNewFromString : String → GoResult Int)
    (binanceOrder : Binance.Order) (isMargin : Bool) :
    (∃ order, toGlobalOrder MustNewFromString binanceOrder isMargin
        = GoResult.returned (some order, none))
    ∨ (∃ msg, toGlobalOrder MustNewFromString binanceOrder isMargin = GoResult.panicked msg) := by
  unfold toGlobalOrder
  cases MustNewFromString binanceOrder.OrigQuantity with
  | panicked msg => exact Or.inr ⟨msg, rfl⟩
  | returned quantity =>
    cases MustNewFromString binanceOrder.Price with
    | panicked msg => exact Or.inr ⟨msg, rfl⟩
    | returned price =>
      cases MustNewFromString binanceOrder.ExecutedQuantity with
      | panicked msg => exact Or.inr ⟨msg, rfl⟩
      | returned executedQuantity => exact Or.inl ⟨_, rfl⟩

theorem toGlobalOrdersFrom_error_nil (MustNewFromString : String → GoResult Int)
    (binanceOrders : List Binance.Order) :
    ∀ (orders : List Types.Order) (r : List Types.Order × Option Error),
      toGlobalOrdersFrom MustNewFromString binanceOrders orders = GoResult.returned r →
      r.2 = none := by
  induction binanceOrders with
  | nil =>
    intro orders r h
    simp only [toGlobalOrdersFrom, GoResult.returned.injEq] at h
    rw [← h]
  | cons b rest ih =>
    intro orders r h
    rcases toGlobalOrder_returned_or_panicked MustNewFromString b false with ⟨order, ho⟩ | ⟨msg, ho⟩
    · simp only [toGlobalOrdersFrom, ho] at h
      exact ih _ r h
    · simp [toGlobalOrdersFrom, ho] at h

/-- C11: `toGlobalOrder` never returns a non-nil error, whatever
`MustNewFromString` does: it returns an order with the literal `nil` error or
it panics, and `toGlobalOrders` returns a nil error whenever it returns. With
a parser that rejects "abc", the conversion of an order whose Price is "abc"
panics instead of returning an error, alone and inside `toGlobalOrders`. -/
theorem toGlobalOrder_malformed_number_panics :
    (∀ (MustNewFromString : String → GoResult Int) (binanceOrder : Binance.Order)
        (isMargin : Bool),
        (∃ order, toGlobalOrder MustNewFromString binanceOrder isMargin
            = GoResult.returned (some order, none))
        ∨ (∃ msg, toGlobalOrder MustNewFromString binanceOrder isMargin
            = GoResult.panicked msg))
    ∧ (∀ (MustNewFromString : String → GoResult Int) (binanceOrders : List Binance.Order)
        (r : List Types.Order × Option Error),
        toGlobalOrders MustNewFromString binanceOrders = GoResult.returned r → r.2 = none)
    ∧ exampleFixedpoint.parses "abc" = false
    ∧ toGlobalOrder exampleFixedpoint.MustNewFromString
          { exampleBinanceOrder with Price := "abc" } false
        = GoResult.panicked "can not parse abc into fixedpoint"
    ∧ toGlobalOrders exampleFixedpoint.MustNewFromString
          [exampleBinanceOrder, { exampleBinanceOrder with Price := "abc" }]
        = GoResult.panicked "can not parse abc into fixedpoint" := by
  refine ⟨toGlobalOrder_returned_or_panicked, ?_, by decide, by decide, by decide⟩
  intro must os r h
  exact toGlobalOrdersFrom_error_nil must os [] r h

/-! ## Claims about `placeOrders` -/

theorem foldl_upsert_mem (os : List Order) :
    ∀ (l : List Order) (o : Order),
      o ∈ os.foldl (fun acc x => acc.filter (fun y => y.OrderID != x.OrderID) ++ [x]) l →
      o ∈ l ∨ o ∈ os := by
  induction os with
  | nil =>
    intro l o h
    exact Or.inl h
  | cons x os ih =>
    intro l o h
    rw [List.foldl_cons] at h
    rcases ih _ o h with h1 | h1
    · rw [List.mem_append] at h1
      rcases h1 with h2 | h2
      · exact Or.inl (List.mem_filter.1 h2).1
      · exact Or.inr (by simp only [List.mem_singleton] at h2; simp [h2])
    · exact Or.inr (List.mem_cons_of_mem _ h1)

theorem foldl_upsert_ids (os : List Order) :
    ∀ (l : List Order) (oID : Nat),
      (∃ o ∈ os.foldl (fun acc x => acc.filter (fun y => y.OrderID != x.OrderID) ++ [x]) l,
          o.OrderID = oID)
        ↔ ((∃ o ∈ l, o.OrderID = oID) ∨ (∃ o ∈ os, o.OrderID = oID)) := by
  induction os with
  | nil =>
    intro l oID
    simp
  | cons x os ih =>
    intro l oID
    rw [List.foldl_cons, ih]
    constructor
    · rintro (⟨o, ho, hid⟩ | ⟨o, ho, hid⟩)
      · rw [List.mem_append] at ho
        rcases ho with h2 | h2
        · exact Or.inl ⟨o, (List.mem_filter.1 h2).1, hid⟩
        · simp only [List.mem_singleton] at h2
          exact Or.inr ⟨x, List.mem_cons_self _ _, h2 ▸ hid⟩
      · exact Or.inr ⟨o, List.mem_cons_of_mem _ ho, hid⟩
    · rintro (⟨o, ho, hid⟩ | ⟨o, ho, hid⟩)
      · by_cases hx : o.OrderID = x.OrderID
        · exact Or.inl ⟨x, by simp, hx ▸ hid⟩
        · refine Or.inl ⟨o, ?_, hid⟩
          rw [List.mem_append]
          exact Or.inl (List.mem_filter.2 ⟨ho, by simpa using hx⟩)
      · rcases List.mem_cons.1 ho with h1 | h1
        · exact Or.inl ⟨x, by simp, h1 ▸ hid⟩
        · exact Or.inr ⟨o, h1, hid⟩

theorem LocalActiveOrderBook.Add_book_orders (os : List Order) :
    ∀ b : LocalActiveOrderBook,
      (b.Add os).orders
        = os.foldl (fun acc x => acc.filter (fun y => y.OrderID != x.OrderID) ++ [x]) b.orders := by
  induction os with
  | nil =>
    intro b
    rfl
  | cons x os ih =>
    intro b
    have hstep : b.Add (x :: os) = LocalActiveOrderBook.Add ⟨(b.Remove x).orders ++ [x]⟩ os := by
      simp [LocalActiveOrderBook.Add]
    rw [hstep, ih]
    rfl

theorem OrderStore.Add_store_orders (os : List Order) :
    ∀ st : OrderStore,
      (st.Add os).orders
        = os.foldl (fun acc x => acc.filter (fun y => y.OrderID != x.OrderID) ++ [x]) st.orders := by
  induction os with
  | nil =>
    intro st
    rfl
  | cons x os ih =>
    intro st
    have hstep : st.Add (x :: os)
        = OrderStore.Add ⟨st.Symbol, st.orders.filter (fun y => y.OrderID != x.OrderID) ++ [x]⟩ os := by
      simp [OrderStore.Add]
    rw [hstep, ih]
    rfl

theorem placeOrders_of_ticker_error (fp : Fixedpoint) (one : Int) (s : Strategy) (env : PlaceEnv)
    (err : Error) (h : env.ticker = .error err) :
    placeOrders fp one s env = GoResult.returned ⟨none, s.orderStore, s.activeMakerOrders⟩ := by
  unfold placeOrders
  simp only [h]

theorem placeOrders_of_ticker_ok (fp : Fixedpoint) (one : Int) (s : Strategy) (env : PlaceEnv)
    (ticker : Ticker) (st : State) (position : Position)
    (h : env.ticker = .ok ticker) (hst : s.state = some st) (hpos : st.Position = some position) :
    ∃ submitOrders,
      placeOrders fp one s env
        = GoResult.returned
            ⟨some submitOrders, s.orderStore.Add (env.SubmitOrders submitOrders).1,
              s.activeMakerOrders.Add (env.SubmitOrders submitOrders).1⟩ := by
  unfold placeOrders
  simp only [h, hst, Option.some_bind, hpos]
  exact ⟨_, rfl⟩

theorem wrapInt64_neg_of_pos (m : Int) (h0 : 0 < m) (h1 : m < 2 ^ 63) :
    wrapInt64 (-m) = -m := by
  have e63 : (2 : Int) ^ 63 = 9223372036854775808 := by norm_num
  have e64 : (2 : Int) ^ 64 = 18446744073709551616 := by norm_num
  unfold wrapInt64
  rw [e63, e64] at *
  rw [Int.emod_eq_of_lt (by omega) (by omega)]
  omega

/-- C15: when `QueryTicker` fails, `placeOrders` makes no `SubmitOrders` call
and leaves the order store and the active maker order book as they were.
Otherwise both receive `Add` of the created orders that `SubmitOrders` returned,
with or without an error: every record of the new book or store was there
before or is a created order, and the identifiers held are those held before
together with those of the created orders. -/
theorem placeOrders_adds_created_orders (fp : Fixedpoint) (one : Int) (s : Strategy)
    (env : PlaceEnv) :
    (∀ err, env.ticker = .error err →
        placeOrders fp one s env
          = GoResult.returned ⟨none, s.orderStore, s.activeMakerOrders⟩)
    ∧ (∀ (ticker : Ticker) (st : State) (position : Position),
        env.ticker = .ok ticker → s.state = some st → st.Position = some position →
        ∃ (submitOrders : List SubmitOrder) (r : PlaceResult),
          placeOrders fp one s env = GoResult.returned r
          ∧ r.submitted = some submitOrders
          ∧ r.orderStore = s.orderStore.Add (env.SubmitOrders submitOrders).1
          ∧ r.activeMakerOrders = s.activeMakerOrders.Add (env.SubmitOrders submitOrders).1
          ∧ (∀ o ∈ r.activeMakerOrders.Orders,
              o ∈ s.activeMakerOrders.Orders ∨ o ∈ (env.SubmitOrders submitOrders).1)
          ∧ (∀ oID, (∃ o ∈ r.activeMakerOrders.Orders, o.OrderID = oID) ↔
              ((∃ o ∈ s.activeMakerOrders.Orders, o.OrderID = oID)
                ∨ (∃ o ∈ (env.SubmitOrders submitOrders).1, o.OrderID = oID)))
          ∧ (∀ o ∈ r.orderStore.orders,
              o ∈ s.orderStore.orders ∨ o ∈ (env.SubmitOrders submitOrders).1)
          ∧ (∀ oID, (∃ o ∈ r.orderStore.orders, o.OrderID = oID) ↔
              ((∃ o ∈ s.orderStore.orders, o.OrderID = oID)
                ∨ (∃ o ∈ (env.SubmitOrders submitOrders).1, o.OrderID = oID)))) := by
  refine ⟨fun err h => placeOrders_of_ticker_error fp one s env err h, ?_⟩
  intro ticker st position h hst hpos
  obtain ⟨submitOrders, hp⟩ := placeOrders_of_ticker_ok fp one s env ticker st position h hst hpos
  refine ⟨submitOrders, _, hp, rfl, rfl, rfl, ?_, ?_, ?_, ?_⟩
  · intro o ho
    simp only [LocalActiveOrderBook.Orders, LocalActiveOrderBook.Add_book_orders] at ho
    exact foldl_upsert_mem _ _ o ho
  · intro oID
    simp only [LocalActiveOrderBook.Orders, LocalActiveOrderBook.Add_book_orders]
    exact foldl_upsert_ids _ _ oID
  · intro o ho
    simp only [OrderStore.Add_store_orders] at ho
    exact foldl_upsert_mem _ _ o ho
  · intro oID
    simp only [OrderStore.Add_store_orders]
    exact foldl_upsert_ids _ _ oID

theorem placeOrders_submitted (fp : Fixedpoint) (one : Int) (s : Strategy) (env : PlaceEnv)
    (ticker : Ticker) (st : State) (position : Position)
    (h : env.ticker = .ok ticker) (hst : s.state = some st) (hpos : st.Position = some position)
    (hm0 : 0 < s.market.MinQuantity) (hm1 : s.market.MinQuantity < 2 ^ 63) :
    ∃ r, placeOrders fp one s env = GoResult.returned r
      ∧ r.submitted = some
          (if -s.market.MinQuantity < position.Base ∧ position.Base < s.market.MinQuantity then
            [{ ClientOrderID := "", Symbol := s.Symbol, Side := Types.SideTypeSell,
               Type_ := Types.OrderTypeLimitMaker, Quantity := s.Quantity,
               Price := fp.Mul ticker.midPrice (wrapInt64 (one + s.Spread)),
               Market := s.market, TimeInForce := "GTC", GroupID := s.groupID },
             { ClientOrderID := "", Symbol := s.Symbol, Side := Types.SideTypeBuy,
               Type_ := Types.OrderTypeLimitMaker, Quantity := s.Quantity,
               Price := fp.Mul ticker.midPrice (wrapInt64 (one - s.Spread)),
               Market := s.market, TimeInForce := "GTC", GroupID := s.groupID }]
          else if s.market.MinQuantity < position.Base then
            [{ ClientOrderID := "", Symbol := s.Symbol, Side := Types.SideTypeSell,
               Type_ := Types.OrderTypeLimitMaker, Quantity := position.Base,
               Price := fp.Mul ticker.midPrice (wrapInt64 (one + s.Spread)),
               Market := s.market, TimeInForce := "GTC", GroupID := s.groupID }]
          else if position.Base < -s.market.MinQuantity then
            [{ ClientOrderID := "", Symbol := s.Symbol, Side := Types.SideTypeBuy,
               Type_ := Types.OrderTypeLimitMaker, Quantity := position.Base,
               Price := fp.Mul ticker.midPrice (wrapInt64 (one - s.Spread)),
               Market := s.market, TimeInForce := "GTC", GroupID := s.groupID }]
          else []) := by
  unfold placeOrders
  simp only [h, hst, Option.some_bind, hpos, wrapInt64_neg_of_pos _ hm0 hm1, gt_iff_lt]
  exact ⟨_, rfl, rfl⟩

/-- C16: with `m` the market's minimum quantity (`0 < m`, an `int64`) and `b`
the position's base, the list `placeOrders` submits is `[sell, buy]`, each
with the configured `Quantity`, when `-m < b < m`; the single sell order when
`b > m`; the single buy order when `b < -m`; and the empty list when `b = m` or
`b = -m`. It never has more than two orders, and each order is a LimitMaker
GTC order for `s.Symbol` with the strategy's group id. -/
theorem placeOrders_submits_by_base (fp : Fixedpoint) (one : Int) (s : Strategy) (env : PlaceEnv)
    (ticker : Ticker) (st : State) (position : Position)
    (h : env.ticker = .ok ticker) (hst : s.state = some st) (hpos : st.Position = some position)
    (hm0 : 0 < s.market.MinQuantity) (hm1 : s.market.MinQuantity < 2 ^ 63) :
    ∃ (r : PlaceResult) (submitOrders : List SubmitOrder),
      placeOrders fp one s env = GoResult.returned r
      ∧ r.submitted = some submitOrders
      ∧ (-s.market.MinQuantity < position.Base → position.Base < s.market.MinQuantity →
          ∃ sell buy, submitOrders = [sell, buy]
            ∧ sell.Side = Types.SideTypeSell ∧ sell.Quantity = s.Quantity
            ∧ buy.Side = Types.SideTypeBuy ∧ buy.Quantity = s.Quantity)
      ∧ (s.market.MinQuantity < position.Base →
          ∃ sell, submitOrders = [sell] ∧ sell.Side = Types.SideTypeSell)
      ∧ (position.Base < -s.market.MinQuantity →
          ∃ buy, submitOrders = [buy] ∧ buy.Side = Types.SideTypeBuy)
      ∧ (position.Base = s.market.MinQuantity ∨ position.Base = -s.market.MinQuantity →
          submitOrders = [])
      ∧ submitOrders.length ≤ 2
      ∧ (∀ o ∈ submitOrders, o.Type_ = Types.OrderTypeLimitMaker ∧ o.TimeInForce = "GTC"
          ∧ o.Symbol = s.Symbol ∧ o.GroupID = s.groupID) := by
  obtain ⟨r, hr, hsub⟩ :=
    placeOrders_submitted fp one s env ticker st position h hst hpos hm0 hm1
  refine ⟨r, _, hr, hsub, ?_, ?_, ?_, ?_, ?_, ?_⟩
  · intro h1 h2
    rw [if_pos ⟨h1, h2⟩]
    exact ⟨_, _, rfl, rfl, rfl, rfl, rfl⟩
  · intro h1
    rw [if_neg (by omega), if_pos h1]
    exact ⟨_, rfl, rfl⟩
  · intro h1
    rw [if_neg (by omega), if_neg (by omega), if_pos h1]
    exact ⟨_, rfl, rfl⟩
  · intro h1
    rw [if_neg (by omega), if_neg (by omega), if_neg (by omega)]
  · split_ifs <;> simp
  · intro o ho
    split_ifs at ho <;> simp at ho
    · rcases ho with ho | ho <;> subst ho <;> exact ⟨rfl, rfl, rfl, rfl⟩
    · subst ho
      exact ⟨rfl, rfl, rfl, rfl⟩
    · subst ho
      exact ⟨rfl, rfl, rfl, rfl⟩

/-- Witness for C16: the example strategy has a long position of 5 against a
minimum quantity of 1, so the single sell order is submitted. -/
theorem placeOrders_submits_by_base_witness :
    ∃ (r : PlaceResult) (sell : SubmitOrder),
      placeOrders exampleFixedpoint 100000000 exampleStrategy ⟨.ok ⟨3⟩, exampleExecutor⟩
        = GoResult.returned r
      ∧ r.submitted = some [sell] ∧ sell.Side = Types.SideTypeSell :=
  match placeOrders_submits_by_base exampleFixedpoint 100000000 exampleStrategy
      ⟨.ok ⟨3⟩, exampleExecutor⟩ ⟨3⟩ exampleState ⟨"BTCUSDT", "BTC", "USDT", 5, -7, 2⟩
      rfl rfl rfl (by decide) (by decide) with
  | ⟨r, _, hr, hsub, _, hsell, _⟩ =>
    match hsell (by decide) with
    | ⟨sell, hs, hside⟩ => ⟨r, sell, hr, hs ▸ hsub, hside⟩

/-- C17: the order that closes a short position carries the position's base as
its quantity, which is negative. For every base `b < -m` (with `0 < m`) the
list submitted is one buy order of quantity `b`, not `|b|`; on the example (a
base of -5, a minimum quantity of 1, a configured quantity of 1) the buy order
has quantity -5. -/
theorem placeOrders_short_position_quantity_negative :
    (∀ (fp : Fixedpoint) (one : Int) (s : Strategy) (env : PlaceEnv) (ticker : Ticker)
        (st : State) (position : Position),
        env.ticker = .ok ticker → s.state = some st → st.Position = some position →
        0 < s.market.MinQuantity → s.market.MinQuantity < 2 ^ 63 →
        position.Base < -s.market.MinQuantity →
        ∃ (r : PlaceResult) (buy : SubmitOrder),
          placeOrders fp one s env = GoResult.returned r ∧ r.submitted = some [buy]
          ∧ buy.Side = Types.SideTypeBuy ∧ buy.Quantity = position.Base ∧ buy.Quantity < 0)
    ∧ 0 < exampleShortStrategy.Quantity
    ∧ 0 < exampleShortStrategy.market.MinQuantity
    ∧ ∃ (r : PlaceResult) (buy : SubmitOrder),
        placeOrders exampleFixedpoint 100000000 exampleShortStrategy
          ⟨.ok ⟨3⟩, exampleExecutor⟩ = GoResult.returned r
        ∧ r.submitted = some [buy] ∧ buy.Side = Types.SideTypeBuy ∧ buy.Quantity = -5 := by
  have hgen : ∀ (fp : Fixedpoint) (one : Int) (s : Strategy) (env : PlaceEnv) (ticker : Ticker)
      (st : State) (position : Position),
      env.ticker = .ok ticker → s.state = some st → st.Position = some position →
      0 < s.market.MinQuantity → s.market.MinQuantity < 2 ^ 63 →
      position.Base < -s.market.MinQuantity →
      ∃ (r : PlaceResult) (buy : SubmitOrder),
        placeOrders fp one s env = GoResult.returned r ∧ r.submitted = some [buy]
        ∧ buy.Side = Types.SideTypeBuy ∧ buy.Quantity = position.Base ∧ buy.Quantity < 0 := by
    intro fp one s env ticker st position h hst hpos hm0 hm1 hb
    obtain ⟨r, hr, hsub⟩ :=
      placeOrders_submitted fp one s env ticker st position h hst hpos hm0 hm1
    rw [if_neg (by omega), if_neg (by omega), if_pos hb] at hsub
    exact ⟨r, _, hr, hsub, rfl, rfl, by show position.Base < 0; omega⟩
  refine ⟨hgen, by decide, by decide, ?_⟩
  obtain ⟨r, buy, hr, hsub, hside, hq, _⟩ :=
    hgen exampleFixedpoint 100000000 exampleShortStrategy ⟨.ok ⟨3⟩, exampleExecutor⟩ ⟨3⟩
      { exampleState with Position := some ⟨"BTCUSDT", "BTC", "USDT", -5, 7, 2⟩ }
      ⟨"BTCUSDT", "BTC", "USDT", -5, 7, 2⟩ rfl rfl rfl (by decide) (by decide) (by decide)
  exact ⟨r, buy, hr, hsub, hside, hq⟩

end Bpp
